import Mathlib

/-! OcDriverConnectionLib

A shallow embedding of `Library/OcDriverConnectionLib/OcDriverConnectionLib.c`
and the properties of its driver override chain and of its handle connector.

Handles and status codes are natural numbers.  The two file-level statics
`mPriorityDrivers` and `mOrgPlatformGetDriver` are passed explicitly to the
functions that read them.  Firmware code reached through a function pointer is
a state-passing function over an arbitrary firmware state.
-/

namespace OcDriverConnectionLib

/-! ## Handles and status codes -/

/-- An EFI handle: a pointer-sized token, `NULL` being zero. -/
abbrev EFI_HANDLE := Nat

/-- The null handle, also the terminator of the priority array. -/
def NULL : EFI_HANDLE := 0

/-- An EFI status code (`UINTN` on a 64-bit platform). -/
abbrev EFI_STATUS := Nat

/-- The high bit of a 64-bit status code, set on every error code. -/
def MAX_BIT : Nat := 2 ^ 63

def EFI_SUCCESS : EFI_STATUS := 0

def EFI_INVALID_PARAMETER : EFI_STATUS := MAX_BIT + 2

def EFI_UNSUPPORTED : EFI_STATUS := MAX_BIT + 3

def EFI_NOT_FOUND : EFI_STATUS := MAX_BIT + 14

/-- The `EFI_ERROR` test: the status, read as a signed integer, is negative. -/
def EFI_ERROR (Status : EFI_STATUS) : Bool := decide (MAX_BIT ≤ Status)

/-! ## The override chain: `OcPlatformGetDriver` -/

/-- What a `GetDriver` entry point hands back: its status, the value it leaves
in `*DriverImageHandle`, and the firmware state after the call. -/
structure GetDriverReturn (σ : Type) where
  Status : EFI_STATUS
  DriverImageHandle : EFI_HANDLE
  world : σ

/-- The type of a `GetDriver` entry point (`This`, `ControllerHandle`, the value
of `*DriverImageHandle` on entry, the firmware state).  The result is `none`
when the call does not return. -/
abbrev EFI_PLATFORM_DRIVER_OVERRIDE_GET_DRIVER (σ : Type) :=
  Nat → EFI_HANDLE → EFI_HANDLE → σ → Option (GetDriverReturn σ)

/-- One invocation of `mOrgPlatformGetDriver`, with the arguments it received. -/
structure OrgCall where
  This : Nat
  ControllerHandle : EFI_HANDLE
  DriverImageHandle : EFI_HANDLE
deriving DecidableEq, Repr

/-- The outcome of one `OcPlatformGetDriver` call: the invocations of the saved
original entry point it made, in order, and what it returned. -/
structure GetDriverOutcome (σ : Type) where
  orgCalls : List OrgCall
  ret : Option (GetDriverReturn σ)

/-- How the lookup loop (source lines 89-108) is left. -/
inductive LookupExit where
  /-- The `return EFI_SUCCESS` inside the loop, `*DriverImageHandle` holding
  the next entry. -/
  | returned (next : EFI_HANDLE)
  /-- The loop ended (condition false, or `break`), with the current value of
  `*DriverImageHandle` and of `FoundLast`. -/
  | done (DriverImageHandle : EFI_HANDLE) (FoundLast : Bool)
deriving DecidableEq, Repr

/-- The lookup loop over the array that `HandlePtr` points into.  The array is
given by its cells; the cell after the last one is the `NULL` terminator. -/
def lookupLoop (DriverImageHandle : EFI_HANDLE) : List EFI_HANDLE → LookupExit
  | [] => .done DriverImageHandle false
  | h :: rest =>
    if h = NULL then
      .done DriverImageHandle false
    else if h = DriverImageHandle then
      if rest.headD NULL ≠ NULL then
        .returned (rest.headD NULL)
      else
        .done (rest.headD NULL) true
    else
      lookupLoop DriverImageHandle rest

/-- The test `mPriorityDrivers == NULL || mPriorityDrivers[0] == NULL`. -/
def noOverrides : Option (List EFI_HANDLE) → Bool
  | none => true
  | some cells => decide (cells.headD NULL = NULL)

/-- A plain return of `OcPlatformGetDriver`, without any forwarded call. -/
def returnStatus {σ : Type} (Status : EFI_STATUS) (DriverImageHandle : EFI_HANDLE)
    (w : σ) : GetDriverOutcome σ :=
  ⟨[], some ⟨Status, DriverImageHandle, w⟩⟩

/-- The statement `return mOrgPlatformGetDriver (This, ControllerHandle,
DriverImageHandle)`. -/
def forwardToOriginal {σ : Type} (org : EFI_PLATFORM_DRIVER_OVERRIDE_GET_DRIVER σ)
    (This : Nat) (ControllerHandle DriverImageHandle : EFI_HANDLE) (w : σ) :
    GetDriverOutcome σ :=
  ⟨[⟨This, ControllerHandle, DriverImageHandle⟩],
    org This ControllerHandle DriverImageHandle w⟩

/-- The function `OcPlatformGetDriver`.  `mPriorityDrivers` is `none` for a null
pointer and otherwise the cells of the array it points to; `DriverImageHandle`
is the value of `*DriverImageHandle` on entry. -/
def OcPlatformGetDriver {σ : Type} (mPriorityDrivers : Option (List EFI_HANDLE))
    (mOrgPlatformGetDriver : Option (EFI_PLATFORM_DRIVER_OVERRIDE_GET_DRIVER σ))
    (This : Nat) (ControllerHandle DriverImageHandle : EFI_HANDLE) (w : σ) :
    GetDriverOutcome σ :=
  if ControllerHandle = NULL then
    returnStatus EFI_INVALID_PARAMETER DriverImageHandle w
  else if noOverrides mPriorityDrivers then
    match mOrgPlatformGetDriver with
    | some org => forwardToOriginal org This ControllerHandle DriverImageHandle w
    | none =>
      if DriverImageHandle = NULL then
        returnStatus EFI_NOT_FOUND DriverImageHandle w
      else
        returnStatus EFI_INVALID_PARAMETER DriverImageHandle w
  else if DriverImageHandle = NULL then
    returnStatus EFI_SUCCESS ((mPriorityDrivers.getD []).headD NULL) w
  else
    match lookupLoop DriverImageHandle (mPriorityDrivers.getD []) with
    | .returned next => returnStatus EFI_SUCCESS next w
    | .done cursor FoundLast =>
      match mOrgPlatformGetDriver with
      | none =>
        if FoundLast then
          returnStatus EFI_NOT_FOUND cursor w
        else
          returnStatus EFI_INVALID_PARAMETER cursor w
      | some org => forwardToOriginal org This ControllerHandle cursor w

/-! ## Enumeration by a caller -/

/-- A caller that enumerates drivers: it makes up to `n` queries, the first with
the given cursor and each later one with the handle the previous query
returned, and stops after the first query that does not return `EFI_SUCCESS`.
The outcomes of the queries made are collected in order. -/
def runQueries {σ : Type} (query : EFI_HANDLE → σ → GetDriverOutcome σ) :
    Nat → EFI_HANDLE → σ → List (GetDriverOutcome σ)
  | 0, _, _ => []
  | n + 1, cursor, w =>
    query cursor w ::
      (match (query cursor w).ret with
       | some r =>
         if r.Status = EFI_SUCCESS then runQueries query n r.DriverImageHandle r.world
         else []
       | none => [])

/-- What a caller sees of one query. -/
inductive Seen where
  | driver (DriverImageHandle : EFI_HANDLE)
  | failed (Status : EFI_STATUS)
  | noReturn
deriving DecidableEq, Repr

/-- The caller's view of an outcome: the handle of a successful query, the
status of a failed one. -/
def seen {σ : Type} (o : GetDriverOutcome σ) : Seen :=
  match o.ret with
  | some r => if r.Status = EFI_SUCCESS then .driver r.DriverImageHandle else .failed r.Status
  | none => .noReturn

/-! ## A well-behaved original authority -/

/-- The entry that follows the first occurrence of the cursor in `Q`, `NULL`
when the cursor is the last entry or does not occur. -/
def entryAfter : List EFI_HANDLE → EFI_HANDLE → EFI_HANDLE
  | [], _ => NULL
  | q :: rest, cursor => if q = cursor then rest.headD NULL else entryAfter rest cursor

/-- The handle a chain over `Q` offers next: the first entry of `Q` for a null
cursor, the entry after the cursor otherwise; `NULL` when there is none. -/
def chainNext (Q : List EFI_HANDLE) (cursor : EFI_HANDLE) : EFI_HANDLE :=
  if cursor = NULL then Q.headD NULL else entryAfter Q cursor

/-- An original `GetDriver` entry point that is a well-behaved chain over `Q`:
for a non-null controller and a cursor that is null or an entry of `Q` it
returns, succeeding with the next entry of `Q` when there is one and reporting
not-found when there is none.  Its effect on the firmware state is arbitrary. -/
def WellBehavedChain {σ : Type} (org : EFI_PLATFORM_DRIVER_OVERRIDE_GET_DRIVER σ)
    (Q : List EFI_HANDLE) : Prop :=
  ∀ (This : Nat) (ControllerHandle cursor : EFI_HANDLE) (w : σ),
    ControllerHandle ≠ NULL → (cursor = NULL ∨ cursor ∈ Q) →
    ∃ r, org This ControllerHandle cursor w = some r ∧
      (chainNext Q cursor ≠ NULL →
        r.Status = EFI_SUCCESS ∧ r.DriverImageHandle = chainNext Q cursor) ∧
      (chainNext Q cursor = NULL → r.Status = EFI_NOT_FOUND)

/-- A concrete chain over `Q` that leaves the firmware state alone. -/
def chainGetDriver {σ : Type} (Q : List EFI_HANDLE) :
    EFI_PLATFORM_DRIVER_OVERRIDE_GET_DRIVER σ :=
  fun _ ControllerHandle cursor w =>
    if ControllerHandle = NULL then
      some ⟨EFI_INVALID_PARAMETER, cursor, w⟩
    else if cursor ≠ NULL ∧ cursor ∉ Q then
      some ⟨EFI_INVALID_PARAMETER, cursor, w⟩
    else if chainNext Q cursor ≠ NULL then
      some ⟨EFI_SUCCESS, chainNext Q cursor, w⟩
    else
      some ⟨EFI_NOT_FOUND, cursor, w⟩

/-! ## The handle connector: `OcConnectDrivers` -/

/-- A protocol GUID, as listed by `ProtocolsPerHandle`. -/
abbrev EFI_GUID := Nat

/-- One entry of the open-agent list of a protocol on a handle. -/
structure EFI_OPEN_PROTOCOL_INFORMATION_ENTRY where
  AgentHandle : EFI_HANDLE
  ControllerHandle : EFI_HANDLE
  Attributes : Nat
  OpenCount : Nat
deriving DecidableEq, Repr

def EFI_OPEN_PROTOCOL_BY_CHILD_CONTROLLER : Nat := 0x00000008

/-- The state the connector works on: the `Signature` field of the `IHANDLE`
record each handle points to (`IHandle.h`), and the rest of the firmware
state. -/
structure World (σ : Type) where
  Signature : EFI_HANDLE → Nat
  firmware : σ

/-- The services of the environment that `OcConnectDrivers` calls.  The queries
read the current state; `ConnectController` may change it in any way.
* `LocateHandleBuffer`: the call with `ByProtocol` and the device path GUID,
  giving the status and the handle buffer.
* `DevicePathText h`: `ConvertDevicePathToText (DevicePathFromHandle (h),
  FALSE, FALSE)`, `none` for a null result.
* `ConnectController h Recursive`: the call with null `DriverImageHandle` and
  null `RemainingDevicePath`. -/
structure BootServices (σ : Type) where
  LocateHandleBuffer : World σ → EFI_STATUS × List EFI_HANDLE
  DevicePathText : EFI_HANDLE → World σ → Option String
  ProtocolsPerHandle : EFI_HANDLE → World σ → EFI_STATUS × List EFI_GUID
  OpenProtocolInformation :
    EFI_HANDLE → EFI_GUID → World σ → EFI_STATUS × List EFI_OPEN_PROTOCOL_INFORMATION_ENTRY
  ConnectController : EFI_HANDLE → Bool → World σ → EFI_STATUS × World σ

/-- What `OcConnectDrivers` does to the environment, in order. -/
inductive Event where
  /-- The assignment `TemporaryIHandle->Signature = value`. -/
  | signatureWrite (Handle : EFI_HANDLE) (value : Nat)
  /-- The call `gBS->ConnectController (ControllerHandle, NULL, NULL, Recursive)`. -/
  | connectController (ControllerHandle : EFI_HANDLE) (Recursive : Bool)
deriving DecidableEq, Repr

/-- The state threaded through the two passes: the environment and the events
so far. -/
structure ConnectorState (σ : Type) where
  world : World σ
  trace : List Event

/-- Modelled from the spec: `StrCmp` of BaseLib is not under src/; the spec has
the rendered text compared byte-for-byte with each vetoed text, an exact match
being a result of zero.  The result is the difference of the first pair of
characters that differ, the end of a text counting as character zero. -/
def StrCmpChars : List Char → List Char → Int
  | [], [] => 0
  | [], c :: _ => 0 - (c.toNat : Int)
  | c :: _, [] => (c.toNat : Int)
  | a :: as, b :: bs => if a = b then StrCmpChars as bs else (a.toNat : Int) - (b.toNat : Int)

/-- Modelled from the spec: `StrCmp` of BaseLib on two texts (see
`StrCmpChars`). -/
def StrCmp (FirstString SecondString : String) : Int :=
  StrCmpChars FirstString.data SecondString.data

/-- The six vetoed device path texts of source lines 253-258. -/
def VetoedPathSet : List String :=
  ["PciRoot(0x0)",
   "PciRoot(0x0)/Pci(0x1F,0x0)",
   "PciRoot(0x0)/Pci(0x1F,0x0)/Acpi(PNP0303,0x0)",
   "PciRoot(0x0)/Pci(0x1F,0x0)/Acpi(PNP0F03,0x0)",
   "PciRoot(0x0)/Pci(0x1F,0x0)/Acpi(PNP0C08,0x0)",
   "PciRoot(0x0)/Pci(0x1F,0x0)/Acpi(PNP0C08,0x1)"]

/-- The condition of source lines 253-259. -/
def isVetoedPath (UnicodeDevicePath : String) : Bool :=
  decide (StrCmp UnicodeDevicePath "PciRoot(0x0)" = 0)
  || decide (StrCmp UnicodeDevicePath "PciRoot(0x0)/Pci(0x1F,0x0)" = 0)
  || decide (StrCmp UnicodeDevicePath "PciRoot(0x0)/Pci(0x1F,0x0)/Acpi(PNP0303,0x0)" = 0)
  || decide (StrCmp UnicodeDevicePath "PciRoot(0x0)/Pci(0x1F,0x0)/Acpi(PNP0F03,0x0)" = 0)
  || decide (StrCmp UnicodeDevicePath "PciRoot(0x0)/Pci(0x1F,0x0)/Acpi(PNP0C08,0x0)" = 0)
  || decide (StrCmp UnicodeDevicePath "PciRoot(0x0)/Pci(0x1F,0x0)/Acpi(PNP0C08,0x1)" = 0)

/-- The assignment `TemporaryIHandle->Signature = 0` for the given handle. -/
def invalidateSignature {σ : Type} (Handle : EFI_HANDLE) (w : World σ) : World σ :=
  { w with Signature := fun h => if h = Handle then 0 else w.Signature h }

/-- The body of the veto loop (source lines 243-278) for one handle. -/
def vetoStep {σ : Type} (gBS : BootServices σ) (Handle : EFI_HANDLE)
    (s : ConnectorState σ) : ConnectorState σ :=
  match gBS.DevicePathText Handle s.world with
  | none => s
  | some UnicodeDevicePath =>
    if isVetoedPath UnicodeDevicePath then
      ⟨invalidateSignature Handle s.world, s.trace ++ [.signatureWrite Handle 0]⟩
    else s

/-- The veto loop over the handle buffer. -/
def vetoPass {σ : Type} (gBS : BootServices σ) :
    List EFI_HANDLE → ConnectorState σ → ConnectorState σ
  | [], s => s
  | Handle :: rest, s => vetoPass gBS rest (vetoStep gBS Handle s)

/-- The loop over `InfoIndex` (source lines 315-320); the last argument and the
result are the value of `Connect`. -/
def infoLoop (Candidate : EFI_HANDLE) :
    List EFI_OPEN_PROTOCOL_INFORMATION_ENTRY → Bool → Bool
  | [], Connect => Connect
  | info :: rest, Connect =>
    if Connect then
      if info.ControllerHandle = Candidate ∧
          info.Attributes &&& EFI_OPEN_PROTOCOL_BY_CHILD_CONTROLLER =
            EFI_OPEN_PROTOCOL_BY_CHILD_CONTROLLER then
        infoLoop Candidate rest false
      else
        infoLoop Candidate rest Connect
    else Connect

/-- The loop over `ProtocolIndex` (source lines 303-323) for the handle
`Handle`. -/
def protocolLoop {σ : Type} (gBS : BootServices σ) (w : World σ)
    (Candidate Handle : EFI_HANDLE) : List EFI_GUID → Bool → Bool
  | [], Connect => Connect
  | Guid :: rest, Connect =>
    if Connect then
      if !EFI_ERROR (gBS.OpenProtocolInformation Handle Guid w).1 then
        protocolLoop gBS w Candidate Handle rest
          (infoLoop Candidate (gBS.OpenProtocolInformation Handle Guid w).2 Connect)
      else
        protocolLoop gBS w Candidate Handle rest Connect
    else Connect

/-- The loop over `HandleIndex` (source lines 289-326). -/
def handleLoop {σ : Type} (gBS : BootServices σ) (w : World σ)
    (Candidate : EFI_HANDLE) : List EFI_HANDLE → Bool → Bool
  | [], Connect => Connect
  | Handle :: rest, Connect =>
    if Connect then
      if EFI_ERROR (gBS.ProtocolsPerHandle Handle w).1 then
        handleLoop gBS w Candidate rest Connect
      else
        handleLoop gBS w Candidate rest
          (protocolLoop gBS w Candidate Handle (gBS.ProtocolsPerHandle Handle w).2 Connect)
    else Connect

/-- The body of the connect loop (source lines 280-334) for the handle at
`DeviceIndex`; `HandleBuffer` is the whole buffer. -/
def connectStep {σ : Type} (gBS : BootServices σ) (HandleBuffer : List EFI_HANDLE)
    (Candidate : EFI_HANDLE) (s : ConnectorState σ) : ConnectorState σ :=
  if handleLoop gBS s.world Candidate HandleBuffer true then
    ⟨(gBS.ConnectController Candidate true s.world).2,
      s.trace ++ [.connectController Candidate true]⟩
  else s

/-- The connect loop over the handles still to be visited. -/
def connectPass {σ : Type} (gBS : BootServices σ) (HandleBuffer : List EFI_HANDLE) :
    List EFI_HANDLE → ConnectorState σ → ConnectorState σ
  | [], s => s
  | Candidate :: rest, s =>
    connectPass gBS HandleBuffer rest (connectStep gBS HandleBuffer Candidate s)

/-- The function `OcConnectDrivers`: its status, and the environment with the
events it caused. -/
def OcConnectDrivers {σ : Type} (gBS : BootServices σ) (w : World σ) :
    EFI_STATUS × ConnectorState σ :=
  if EFI_ERROR (gBS.LocateHandleBuffer w).1 then
    ((gBS.LocateHandleBuffer w).1, ⟨w, []⟩)
  else
    (EFI_SUCCESS,
      connectPass gBS (gBS.LocateHandleBuffer w).2 (gBS.LocateHandleBuffer w).2
        (vetoPass gBS (gBS.LocateHandleBuffer w).2 ⟨w, []⟩))

/-- The signature of a live handle record, `SIGNATURE_32 ('h','n','d','l')`. -/
def EFI_HANDLE_SIGNATURE : Nat := 0x6C646E68

/-- An example environment: handle 1 has the device path text `PciRoot(0x0)`,
handle 2 the text `PciRoot(0x0)/Pci(0x1,0x0)`, no protocol is held open by
anyone, and `ConnectController` refuses a handle whose signature is not
`EFI_HANDLE_SIGNATURE`. -/
def exampleServices : BootServices Unit where
  LocateHandleBuffer := fun _ => (EFI_SUCCESS, [1, 2])
  DevicePathText := fun h _ =>
    if h = 1 then some "PciRoot(0x0)"
    else if h = 2 then some "PciRoot(0x0)/Pci(0x1,0x0)"
    else none
  ProtocolsPerHandle := fun _ _ => (EFI_SUCCESS, [100])
  OpenProtocolInformation := fun _ _ _ => (EFI_SUCCESS, [])
  ConnectController := fun h _ w =>
    (if w.Signature h = EFI_HANDLE_SIGNATURE then EFI_SUCCESS else EFI_INVALID_PARAMETER, w)

/-- The state the example starts in: every handle record is live. -/
def exampleWorld : World Unit := ⟨fun _ => EFI_HANDLE_SIGNATURE, ()⟩

/-! ## The child test in the words of the specification -/

/-- An open-agent entry that names the candidate as the controller opened by
child controller relationship (the condition of source lines 316-317). -/
def isChildEntry (Candidate : EFI_HANDLE) (info : EFI_OPEN_PROTOCOL_INFORMATION_ENTRY) :
    Bool :=
  decide (info.ControllerHandle = Candidate ∧
    info.Attributes &&& EFI_OPEN_PROTOCOL_BY_CHILD_CONTROLLER =
      EFI_OPEN_PROTOCOL_BY_CHILD_CONTROLLER)

/-- The candidate is detected as a child, as the specification words it: some
handle of the snapshot has a protocol (both queries succeeding) whose open-agent
list holds an entry naming the candidate as the controller opened by child
controller relationship.  To be compared with `handleLoop`. -/
def detectedAsChild {σ : Type} (gBS : BootServices σ) (w : World σ)
    (Candidate : EFI_HANDLE) (HandleBuffer : List EFI_HANDLE) : Bool :=
  HandleBuffer.any fun Handle =>
    !EFI_ERROR (gBS.ProtocolsPerHandle Handle w).1 &&
    (gBS.ProtocolsPerHandle Handle w).2.any fun Guid =>
      !EFI_ERROR (gBS.OpenProtocolInformation Handle Guid w).1 &&
      (gBS.OpenProtocolInformation Handle Guid w).2.any (isChildEntry Candidate)

/-- An example environment with a child: the snapshot is `[1, 2, 3]`, no handle
has a device path text, and protocol 100 on handle 1 is held open on behalf of
controller 2 by child controller relationship. -/
def exampleChildServices : BootServices Unit where
  LocateHandleBuffer := fun _ => (EFI_SUCCESS, [1, 2, 3])
  DevicePathText := fun _ _ => none
  ProtocolsPerHandle := fun _ _ => (EFI_SUCCESS, [100])
  OpenProtocolInformation := fun h _ _ =>
    if h = 1 then (EFI_SUCCESS, [⟨9, 2, EFI_OPEN_PROTOCOL_BY_CHILD_CONTROLLER, 1⟩])
    else (EFI_SUCCESS, [])
  ConnectController := fun _ _ w => (EFI_SUCCESS, w)

/-- An example environment in which the handle enumeration fails. -/
def exampleFailingServices : BootServices Unit where
  LocateHandleBuffer := fun _ => (EFI_NOT_FOUND, [])
  DevicePathText := fun _ _ => none
  ProtocolsPerHandle := fun _ _ => (EFI_SUCCESS, [])
  OpenProtocolInformation := fun _ _ _ => (EFI_SUCCESS, [])
  ConnectController := fun _ _ w => (EFI_SUCCESS, w)

/-- A text as it is stored in a NUL-terminated string: no character of it is
the NUL character. -/
def isText (t : String) : Bool := t.data.all fun c => c.toNat != 0

/-! ## Registration: `OcRegisterDriversToHighestPriority` -/

/-- A pointer to a `GetDriver` function: the address of this library's
`OcPlatformGetDriver`, or a function of the firmware. -/
inductive GetDriverEntry (σ : Type) where
  | OcPlatformGetDriver
  | external (f : EFI_PLATFORM_DRIVER_OVERRIDE_GET_DRIVER σ)

/-- A pointer to a `GetDriverPath` function. -/
inductive GetDriverPathEntry where
  | OcPlatformGetDriverPath
  | external (address : Nat)
deriving DecidableEq, Repr

/-- A pointer to a `DriverLoaded` function. -/
inductive DriverLoadedEntry where
  | OcPlatformDriverLoaded
  | external (address : Nat)
deriving DecidableEq, Repr

/-- The protocol structure with its three entry points; `GetDriver` is `none`
for a null pointer. -/
structure EFI_PLATFORM_DRIVER_OVERRIDE_PROTOCOL (σ : Type) where
  GetDriver : Option (GetDriverEntry σ)
  GetDriverPath : GetDriverPathEntry
  DriverLoaded : DriverLoadedEntry

/-- The two file-level statics of the library (source lines 28 and 33). -/
structure Statics (σ : Type) where
  mPriorityDrivers : Option (List EFI_HANDLE)
  mOrgPlatformGetDriver : Option (GetDriverEntry σ)

/-- The static `mOcPlatformDriverOverrideProtocol` (source lines 161-167). -/
def mOcPlatformDriverOverrideProtocol {σ : Type} : EFI_PLATFORM_DRIVER_OVERRIDE_PROTOCOL σ :=
  ⟨some .OcPlatformGetDriver, .OcPlatformGetDriverPath, .OcPlatformDriverLoaded⟩

/-- The part of the environment that registration touches: the driver override
protocol instance installed in the handle database, if any, and the status the
environment gives to a request to install one. -/
structure Platform (σ : Type) where
  PlatformDriverOverride : Option (EFI_PLATFORM_DRIVER_OVERRIDE_PROTOCOL σ)
  InstallStatus : EFI_STATUS

/-- Modelled from the spec: the boot service `LocateProtocol` is not under
src/; called for the driver override GUID it gives the installed authority, or
reports not-found. -/
def LocateProtocol {σ : Type} (p : Platform σ) :
    EFI_STATUS × Option (EFI_PLATFORM_DRIVER_OVERRIDE_PROTOCOL σ) :=
  match p.PlatformDriverOverride with
  | some Interface => (EFI_SUCCESS, some Interface)
  | none => (EFI_NOT_FOUND, none)

/-- Modelled from the spec: the boot service `InstallMultipleProtocolInterfaces`
is not under src/; called for the driver override GUID it reports success or
failure, and on success the interface is the installed authority. -/
def InstallMultipleProtocolInterfaces {σ : Type}
    (Interface : EFI_PLATFORM_DRIVER_OVERRIDE_PROTOCOL σ) (p : Platform σ) :
    EFI_STATUS × Platform σ :=
  if EFI_ERROR p.InstallStatus then
    (p.InstallStatus, p)
  else
    (p.InstallStatus, ⟨some Interface, p.InstallStatus⟩)

/-- The function `OcRegisterDriversToHighestPriority`; the argument is the array
that the non-null `PriorityDrivers` points to.  The result is the status, the
statics and the environment after the call. -/
def OcRegisterDriversToHighestPriority {σ : Type} (PriorityDrivers : List EFI_HANDLE)
    (st : Statics σ) (p : Platform σ) : EFI_STATUS × Statics σ × Platform σ :=
  if !EFI_ERROR (LocateProtocol p).1 then
    match (LocateProtocol p).2 with
    | some PlatformDriverOverride =>
      ((LocateProtocol p).1,
        ⟨some PriorityDrivers, PlatformDriverOverride.GetDriver⟩,
        ⟨some ⟨some .OcPlatformGetDriver, PlatformDriverOverride.GetDriverPath,
            PlatformDriverOverride.DriverLoaded⟩,
          p.InstallStatus⟩)
    | none => ((LocateProtocol p).1, ⟨some PriorityDrivers, st.mOrgPlatformGetDriver⟩, p)
  else
    ((InstallMultipleProtocolInterfaces mOcPlatformDriverOverrideProtocol p).1,
      ⟨some PriorityDrivers, st.mOrgPlatformGetDriver⟩,
      (InstallMultipleProtocolInterfaces mOcPlatformDriverOverrideProtocol p).2)

/-- A call through a `GetDriver` pointer, with the statics as they are at the
time of the call.  A firmware function is called as it is; the library's own
entry point runs `OcPlatformGetDriver`, whose saved original is again a
pointer.  The first argument bounds the depth of calls of the library's entry
point into itself; the call does not return within that depth when the result
is `none`. -/
def callGetDriver {σ : Type} (st : Statics σ) :
    Nat → GetDriverEntry σ → EFI_PLATFORM_DRIVER_OVERRIDE_GET_DRIVER σ
  | _, .external f => f
  | 0, .OcPlatformGetDriver => fun _ _ _ _ => none
  | n + 1, .OcPlatformGetDriver => fun This ControllerHandle DriverImageHandle w =>
    (OcPlatformGetDriver st.mPriorityDrivers
      (st.mOrgPlatformGetDriver.map fun e => callGetDriver st n e)
      This ControllerHandle DriverImageHandle w).ret

set_option linter.unusedVariables false in
/-- The function `OcPlatformGetDriverPath`: its status, the value it leaves in
`*DriverImagePath`, the statics and the firmware state after the call. -/
def OcPlatformGetDriverPath {σ : Type} (st : Statics σ) (This : Nat)
    (ControllerHandle : EFI_HANDLE) (DriverImagePath : Nat) (w : σ) :
    EFI_STATUS × Nat × Statics σ × σ :=
  (EFI_UNSUPPORTED, DriverImagePath, st, w)

set_option linter.unusedVariables false in
/-- The function `OcPlatformDriverLoaded`: its status, the statics and the
firmware state after the call. -/
def OcPlatformDriverLoaded {σ : Type} (st : Statics σ) (This : Nat)
    (ControllerHandle : EFI_HANDLE) (DriverImagePath : Nat)
    (DriverImageHandle : EFI_HANDLE) (w : σ) : EFI_STATUS × Statics σ × σ :=
  (EFI_UNSUPPORTED, st, w)

/-- The statics before any registration: both null. -/
def initialStatics {σ : Type} : Statics σ := ⟨none, none⟩

/-- An example environment without a driver override authority, in which an
installation succeeds. -/
def examplePlatform : Platform Unit := ⟨none, EFI_SUCCESS⟩

/-- The saved original is the library's own `OcPlatformGetDriver`. -/
def pointsToOcPlatformGetDriver {σ : Type} : Option (GetDriverEntry σ) → Bool
  | some .OcPlatformGetDriver => true
  | _ => false

/-- The example environment after one registration of the list `[5]`. -/
def registeredOnce : EFI_STATUS × Statics Unit × Platform Unit :=
  OcRegisterDriversToHighestPriority [5] initialStatics examplePlatform

/-- The example environment after a registration of `[5]` followed by a second
registration of `[5]`. -/
def registeredTwice : EFI_STATUS × Statics Unit × Platform Unit :=
  OcRegisterDriversToHighestPriority [5] registeredOnce.2.1 registeredOnce.2.2

/-! ## Properties of the lookup loop -/

theorem headD_eq_getD_zero (l : List EFI_HANDLE) (d : EFI_HANDLE) :
    l.getD 0 d = l.headD d := by
  cases l <;> rfl

/-- A cursor that occurs in no cell leaves the loop with the cursor untouched
and `FoundLast` false. -/
theorem lookupLoop_not_mem (c : EFI_HANDLE) (P : List EFI_HANDLE) (hc : c ∉ P) :
    lookupLoop c P = .done c false := by
  induction P with
  | nil => rfl
  | cons h rest ih =>
    have hne : h ≠ c := fun e => hc (by simp [e])
    have hrest : c ∉ rest := fun m => hc (List.mem_cons_of_mem _ m)
    simp only [lookupLoop]
    by_cases h0 : h = NULL
    · simp [h0]
    · simp [h0, hne, ih hrest]

/-- A cursor that occurs in a list without null cells: the loop looks at the
cell after the first occurrence. -/
theorem lookupLoop_mem (c : EFI_HANDLE) (P : List EFI_HANDLE) (h0 : NULL ∉ P)
    (hc : c ∈ P) :
    lookupLoop c P =
      if P.getD (P.indexOf c + 1) NULL ≠ NULL then
        .returned (P.getD (P.indexOf c + 1) NULL)
      else .done NULL true := by
  induction P with
  | nil => simp at hc
  | cons h rest ih =>
    have hh : h ≠ NULL := fun e => h0 (by simp [e])
    have hrest0 : NULL ∉ rest := fun m => h0 (List.mem_cons_of_mem _ m)
    simp only [lookupLoop, if_neg hh]
    by_cases e : h = c
    · subst e
      simp only [if_true, List.indexOf_cons_eq _ rfl, Nat.zero_add,
        List.getD_cons_succ, headD_eq_getD_zero]
      by_cases hn : rest.headD NULL = NULL
      · rw [if_neg (not_not.mpr hn), if_neg (not_not.mpr hn), hn]
      · rw [if_pos hn, if_pos hn]
    · have hmem : c ∈ rest := by
        rcases List.mem_cons.mp hc with h1 | h1
        · exact absurd h1.symm e
        · exact h1
      simp only [if_neg e, List.indexOf_cons_ne _ e, List.getD_cons_succ]
      exact ih hrest0 hmem

theorem noOverrides_of_head_ne (P : List EFI_HANDLE) (hP : P.headD NULL ≠ NULL) :
    noOverrides (some P) = false := by
  unfold noOverrides
  exact decide_eq_false hP

theorem noOverrides_of_head_eq (P : List EFI_HANDLE) (hP : P.headD NULL = NULL) :
    noOverrides (some P) = true := by
  unfold noOverrides
  exact decide_eq_true hP

theorem head_ne_of_mem (P : List EFI_HANDLE) (h0 : NULL ∉ P) (c : EFI_HANDLE)
    (hc : c ∈ P) : P.headD NULL ≠ NULL := by
  cases P with
  | nil => simp at hc
  | cons a rest =>
    intro e
    exact h0 (by simp at e; simp [e])

/-! ## Single queries -/

/-- C1: with a priority list whose first entry is non-null and a non-null
controller, a query with a null cursor returns success with the first entry as
the new cursor, leaves the firmware state alone and makes no call to the saved
original entry point, whether or not one is saved and whatever it would do. -/
theorem getDriver_null_cursor {σ : Type} (P : List EFI_HANDLE)
    (hP : P.headD NULL ≠ NULL)
    (org : Option (EFI_PLATFORM_DRIVER_OVERRIDE_GET_DRIVER σ))
    (This : Nat) (ControllerHandle : EFI_HANDLE) (hC : ControllerHandle ≠ NULL) (w : σ) :
    OcPlatformGetDriver (some P) org This ControllerHandle NULL w =
      ⟨[], some ⟨EFI_SUCCESS, P.headD NULL, w⟩⟩ := by
  unfold OcPlatformGetDriver
  rw [if_neg hC, noOverrides_of_head_ne P hP]
  rfl

theorem getDriver_null_cursor_witness :
    ([5, 6] : List EFI_HANDLE).headD NULL ≠ NULL ∧ (1 : EFI_HANDLE) ≠ NULL ∧
    @OcPlatformGetDriver Unit (some [5, 6]) (some (fun _ _ _ _ => none)) 9 1 NULL () =
      ⟨[], some ⟨EFI_SUCCESS, 5, ()⟩⟩ :=
  ⟨by decide, by decide,
    getDriver_null_cursor [5, 6] (by decide) (some (fun _ _ _ _ => none)) 9 1 (by decide) ()⟩

/-- C4: with an empty registered priority list (first cell is the terminator)
and a saved original entry point, a query with a non-null controller and any
cursor makes exactly one call to the original, with the same arguments, and
returns what that call returns (status, cursor and firmware state). -/
theorem getDriver_empty_list_pass_through {σ : Type} (P : List EFI_HANDLE)
    (hP : P.headD NULL = NULL) (org : EFI_PLATFORM_DRIVER_OVERRIDE_GET_DRIVER σ)
    (This : Nat) (ControllerHandle : EFI_HANDLE) (hC : ControllerHandle ≠ NULL)
    (DriverImageHandle : EFI_HANDLE) (w : σ) :
    (OcPlatformGetDriver (some P) (some org) This ControllerHandle DriverImageHandle w).ret =
        org This ControllerHandle DriverImageHandle w ∧
    (OcPlatformGetDriver (some P) (some org) This ControllerHandle DriverImageHandle w).orgCalls =
        [⟨This, ControllerHandle, DriverImageHandle⟩] := by
  unfold OcPlatformGetDriver
  rw [if_neg hC, noOverrides_of_head_eq P hP]
  exact ⟨rfl, rfl⟩

theorem getDriver_empty_list_pass_through_witness :
    ([] : List EFI_HANDLE).headD NULL = NULL ∧ (1 : EFI_HANDLE) ≠ NULL ∧
    (@OcPlatformGetDriver Unit (some [])
        (some (fun _ _ c u => some ⟨EFI_SUCCESS, c + 1, u⟩)) 9 1 7 ()).ret =
      (fun _ _ c u => some ⟨EFI_SUCCESS, c + 1, u⟩ :
        EFI_PLATFORM_DRIVER_OVERRIDE_GET_DRIVER Unit) 9 1 7 () ∧
    (@OcPlatformGetDriver Unit (some [])
        (some (fun _ _ c u => some ⟨EFI_SUCCESS, c + 1, u⟩)) 9 1 7 ()).orgCalls =
      [⟨9, 1, 7⟩] :=
  ⟨by decide, by decide,
    getDriver_empty_list_pass_through [] (by decide)
      (fun _ _ c u => some ⟨EFI_SUCCESS, c + 1, u⟩) 9 1 (by decide) 7 ()⟩

/-- C5: the cursor's first occurrence in the priority list (no null entries) is
the last position, the controller is non-null.  Without a saved original the
query returns not-found and leaves the cursor null, making no call; with one it
makes exactly one call to the original, with the same controller and a null
cursor, and returns what that call returns. -/
theorem getDriver_last_entry {σ : Type} (P : List EFI_HANDLE) (h0 : NULL ∉ P)
    (DriverImageHandle : EFI_HANDLE) (hc : DriverImageHandle ∈ P)
    (hlast : P.indexOf DriverImageHandle + 1 = P.length)
    (This : Nat) (ControllerHandle : EFI_HANDLE) (hC : ControllerHandle ≠ NULL) (w : σ) :
    OcPlatformGetDriver (some P) none This ControllerHandle DriverImageHandle w =
        ⟨[], some ⟨EFI_NOT_FOUND, NULL, w⟩⟩ ∧
    ∀ org : EFI_PLATFORM_DRIVER_OVERRIDE_GET_DRIVER σ,
      OcPlatformGetDriver (some P) (some org) This ControllerHandle DriverImageHandle w =
        ⟨[⟨This, ControllerHandle, NULL⟩], org This ControllerHandle NULL w⟩ := by
  have hne : DriverImageHandle ≠ NULL := fun e => h0 (e ▸ hc)
  have hnext : P.getD (P.indexOf DriverImageHandle + 1) NULL = NULL := by
    rw [hlast]
    exact List.getD_eq_default _ _ (le_refl _)
  have hloop : lookupLoop DriverImageHandle P = .done NULL true := by
    rw [lookupLoop_mem DriverImageHandle P h0 hc, if_neg (not_not.mpr hnext)]
  constructor
  · unfold OcPlatformGetDriver
    rw [if_neg hC, noOverrides_of_head_ne P (head_ne_of_mem P h0 _ hc)]
    simp only [Bool.false_eq_true, if_false, if_neg hne, Option.getD_some, hloop]
    rfl
  · intro org
    unfold OcPlatformGetDriver
    rw [if_neg hC, noOverrides_of_head_ne P (head_ne_of_mem P h0 _ hc)]
    simp only [Bool.false_eq_true, if_false, if_neg hne, Option.getD_some, hloop]
    rfl

theorem getDriver_last_entry_witness :
    NULL ∉ ([5, 6] : List EFI_HANDLE) ∧ (6 : EFI_HANDLE) ∈ ([5, 6] : List EFI_HANDLE) ∧
    ([5, 6] : List EFI_HANDLE).indexOf 6 + 1 = ([5, 6] : List EFI_HANDLE).length ∧
    (1 : EFI_HANDLE) ≠ NULL ∧
    (@OcPlatformGetDriver Unit (some [5, 6]) none 9 1 6 () =
        ⟨[], some ⟨EFI_NOT_FOUND, NULL, ()⟩⟩ ∧
     ∀ org : EFI_PLATFORM_DRIVER_OVERRIDE_GET_DRIVER Unit,
      OcPlatformGetDriver (some [5, 6]) (some org) 9 1 6 () =
        ⟨[⟨9, 1, NULL⟩], org 9 1 NULL ()⟩) :=
  ⟨by decide, by decide, by decide, by decide,
    getDriver_last_entry [5, 6] (by decide) 6 (by decide) (by decide) 9 1 (by decide) ()⟩

/-- C6: the cursor occurs in the priority list (no null entries), first at
position `i`, and entry `i + 1` is non-null, the controller is non-null.  The
query returns success with entry `i + 1` as the new cursor and makes no call to
the saved original entry point, whether or not one is saved. -/
theorem getDriver_advance {σ : Type} (P : List EFI_HANDLE) (h0 : NULL ∉ P)
    (DriverImageHandle : EFI_HANDLE) (hc : DriverImageHandle ∈ P)
    (hnext : P.getD (P.indexOf DriverImageHandle + 1) NULL ≠ NULL)
    (org : Option (EFI_PLATFORM_DRIVER_OVERRIDE_GET_DRIVER σ))
    (This : Nat) (ControllerHandle : EFI_HANDLE) (hC : ControllerHandle ≠ NULL) (w : σ) :
    OcPlatformGetDriver (some P) org This ControllerHandle DriverImageHandle w =
      ⟨[], some ⟨EFI_SUCCESS, P.getD (P.indexOf DriverImageHandle + 1) NULL, w⟩⟩ := by
  have hne : DriverImageHandle ≠ NULL := fun e => h0 (e ▸ hc)
  have hloop : lookupLoop DriverImageHandle P =
      .returned (P.getD (P.indexOf DriverImageHandle + 1) NULL) := by
    rw [lookupLoop_mem DriverImageHandle P h0 hc, if_pos hnext]
  unfold OcPlatformGetDriver
  rw [if_neg hC, noOverrides_of_head_ne P (head_ne_of_mem P h0 _ hc)]
  simp only [Bool.false_eq_true, if_false, if_neg hne, Option.getD_some, hloop]
  rfl

theorem getDriver_advance_witness :
    NULL ∉ ([5, 6, 7] : List EFI_HANDLE) ∧ (5 : EFI_HANDLE) ∈ ([5, 6, 7] : List EFI_HANDLE) ∧
    ([5, 6, 7] : List EFI_HANDLE).getD (([5, 6, 7] : List EFI_HANDLE).indexOf 5 + 1) NULL
      ≠ NULL ∧
    (1 : EFI_HANDLE) ≠ NULL ∧
    @OcPlatformGetDriver Unit (some [5, 6, 7]) (some (fun _ _ _ _ => none)) 9 1 5 () =
      ⟨[], some ⟨EFI_SUCCESS,
        ([5, 6, 7] : List EFI_HANDLE).getD (([5, 6, 7] : List EFI_HANDLE).indexOf 5 + 1) NULL,
        ()⟩⟩ :=
  ⟨by decide, by decide, by decide, by decide,
    getDriver_advance [5, 6, 7] (by decide) 5 (by decide) (by decide)
      (some (fun _ _ _ _ => none)) 9 1 (by decide) ()⟩

/-- C7: a non-empty priority list, a non-null controller and a non-null cursor
that equals no entry.  Without a saved original the query returns
invalid-parameter, leaves the cursor unchanged and makes no call; with one it
makes exactly one call to the original, with the same controller and the same
cursor, and returns what that call returns. -/
theorem getDriver_unknown_cursor {σ : Type} (P : List EFI_HANDLE)
    (hP : P.headD NULL ≠ NULL) (DriverImageHandle : EFI_HANDLE)
    (hne : DriverImageHandle ≠ NULL) (hc : DriverImageHandle ∉ P)
    (This : Nat) (ControllerHandle : EFI_HANDLE) (hC : ControllerHandle ≠ NULL) (w : σ) :
    OcPlatformGetDriver (some P) none This ControllerHandle DriverImageHandle w =
        ⟨[], some ⟨EFI_INVALID_PARAMETER, DriverImageHandle, w⟩⟩ ∧
    ∀ org : EFI_PLATFORM_DRIVER_OVERRIDE_GET_DRIVER σ,
      OcPlatformGetDriver (some P) (some org) This ControllerHandle DriverImageHandle w =
        ⟨[⟨This, ControllerHandle, DriverImageHandle⟩],
          org This ControllerHandle DriverImageHandle w⟩ := by
  have hloop := lookupLoop_not_mem DriverImageHandle P hc
  constructor
  · unfold OcPlatformGetDriver
    rw [if_neg hC, noOverrides_of_head_ne P hP]
    simp only [Bool.false_eq_true, if_false, if_neg hne, Option.getD_some, hloop]
    rfl
  · intro org
    unfold OcPlatformGetDriver
    rw [if_neg hC, noOverrides_of_head_ne P hP]
    simp only [Bool.false_eq_true, if_false, if_neg hne, Option.getD_some, hloop]
    rfl

theorem getDriver_unknown_cursor_witness :
    ([5, 6] : List EFI_HANDLE).headD NULL ≠ NULL ∧ (8 : EFI_HANDLE) ≠ NULL ∧
    (8 : EFI_HANDLE) ∉ ([5, 6] : List EFI_HANDLE) ∧ (1 : EFI_HANDLE) ≠ NULL ∧
    (@OcPlatformGetDriver Unit (some [5, 6]) none 9 1 8 () =
        ⟨[], some ⟨EFI_INVALID_PARAMETER, 8, ()⟩⟩ ∧
     ∀ org : EFI_PLATFORM_DRIVER_OVERRIDE_GET_DRIVER Unit,
      OcPlatformGetDriver (some [5, 6]) (some org) 9 1 8 () =
        ⟨[⟨9, 1, 8⟩], org 9 1 8 ()⟩) :=
  ⟨by decide, by decide, by decide, by decide,
    getDriver_unknown_cursor [5, 6] (by decide) 8 (by decide) (by decide) 9 1 (by decide) ()⟩

/-- C8: no priority list is registered, or the registered one is empty, and no
original entry point is saved.  For a non-null controller the query returns
not-found when the cursor is null and invalid-parameter when it is not, and
leaves the cursor (and the firmware state) unchanged in both cases. -/
theorem getDriver_no_override_no_original {σ : Type}
    (mPriorityDrivers : Option (List EFI_HANDLE))
    (hP : mPriorityDrivers = none ∨
      ∃ P, mPriorityDrivers = some P ∧ P.headD NULL = NULL)
    (This : Nat) (ControllerHandle : EFI_HANDLE) (hC : ControllerHandle ≠ NULL)
    (DriverImageHandle : EFI_HANDLE) (w : σ) :
    (DriverImageHandle = NULL →
      OcPlatformGetDriver mPriorityDrivers none This ControllerHandle DriverImageHandle w =
        ⟨[], some ⟨EFI_NOT_FOUND, DriverImageHandle, w⟩⟩) ∧
    (DriverImageHandle ≠ NULL →
      OcPlatformGetDriver mPriorityDrivers none This ControllerHandle DriverImageHandle w =
        ⟨[], some ⟨EFI_INVALID_PARAMETER, DriverImageHandle, w⟩⟩) := by
  have hno : noOverrides mPriorityDrivers = true := by
    rcases hP with h | ⟨P, h, hh⟩
    · rw [h]; rfl
    · rw [h]; exact noOverrides_of_head_eq P hh
  constructor
  · intro hd
    unfold OcPlatformGetDriver
    rw [if_neg hC, hno]
    simp only [if_true, if_pos hd]
    rfl
  · intro hd
    unfold OcPlatformGetDriver
    rw [if_neg hC, hno]
    simp only [if_true, if_neg hd]
    rfl

theorem getDriver_no_override_no_original_witness :
    ((some [] : Option (List EFI_HANDLE)) = none ∨
      ∃ P, (some [] : Option (List EFI_HANDLE)) = some P ∧ P.headD NULL = NULL) ∧
    (1 : EFI_HANDLE) ≠ NULL ∧
    ((7 : EFI_HANDLE) = NULL →
      @OcPlatformGetDriver Unit (some []) none 9 1 7 () =
        ⟨[], some ⟨EFI_NOT_FOUND, 7, ()⟩⟩) ∧
    ((7 : EFI_HANDLE) ≠ NULL →
      @OcPlatformGetDriver Unit (some []) none 9 1 7 () =
        ⟨[], some ⟨EFI_INVALID_PARAMETER, 7, ()⟩⟩) :=
  ⟨Or.inr ⟨[], rfl, rfl⟩, by decide,
    getDriver_no_override_no_original (some []) (Or.inr ⟨[], rfl, rfl⟩) 9 1 (by decide) 7 ()⟩

/-- C9: with a null controller handle the query returns invalid-parameter,
leaves the cursor and the firmware state unchanged and makes no call to the
saved original entry point, for every priority list, every saved original and
every cursor. -/
theorem getDriver_null_controller {σ : Type} (mPriorityDrivers : Option (List EFI_HANDLE))
    (org : Option (EFI_PLATFORM_DRIVER_OVERRIDE_GET_DRIVER σ))
    (This : Nat) (DriverImageHandle : EFI_HANDLE) (w : σ) :
    OcPlatformGetDriver mPriorityDrivers org This NULL DriverImageHandle w =
      ⟨[], some ⟨EFI_INVALID_PARAMETER, DriverImageHandle, w⟩⟩ := by
  unfold OcPlatformGetDriver
  rw [if_pos rfl]
  rfl

/-! ## Enumeration: helper lemmas -/

theorem notFound_ne_success : EFI_NOT_FOUND ≠ EFI_SUCCESS := by decide

theorem runQueries_of_success {σ : Type} (q : EFI_HANDLE → σ → GetDriverOutcome σ)
    (n : Nat) (c : EFI_HANDLE) (w : σ) (r : GetDriverReturn σ)
    (h : (q c w).ret = some r) (hs : r.Status = EFI_SUCCESS) :
    runQueries q (n + 1) c w = q c w :: runQueries q n r.DriverImageHandle r.world := by
  simp only [runQueries, h, hs, if_true]

theorem runQueries_of_failure {σ : Type} (q : EFI_HANDLE → σ → GetDriverOutcome σ)
    (n : Nat) (c : EFI_HANDLE) (w : σ) (r : GetDriverReturn σ)
    (h : (q c w).ret = some r) (hs : r.Status ≠ EFI_SUCCESS) :
    runQueries q (n + 1) c w = [q c w] := by
  simp only [runQueries, h, if_neg hs]

theorem runQueries_one {σ : Type} (q : EFI_HANDLE → σ → GetDriverOutcome σ)
    (c : EFI_HANDLE) (w : σ) : runQueries q 1 c w = [q c w] := by
  simp only [runQueries]
  cases (q c w).ret with
  | none => rfl
  | some r => by_cases hs : r.Status = EFI_SUCCESS <;> simp [hs]

theorem seen_of_success {σ : Type} (o : GetDriverOutcome σ) (r : GetDriverReturn σ)
    (h : o.ret = some r) (hs : r.Status = EFI_SUCCESS) :
    seen o = .driver r.DriverImageHandle := by
  simp only [seen, h, hs, if_true]

theorem seen_of_failure {σ : Type} (o : GetDriverOutcome σ) (r : GetDriverReturn σ)
    (h : o.ret = some r) (hs : r.Status ≠ EFI_SUCCESS) :
    seen o = .failed r.Status := by
  simp only [seen, h, if_neg hs]

theorem lookupLoop_append_mid (pre : List EFI_HANDLE) (a b : EFI_HANDLE)
    (rest : List EFI_HANDLE) (hpre : NULL ∉ pre) (ha : a ∉ pre) (ha0 : a ≠ NULL)
    (hb0 : b ≠ NULL) : lookupLoop a (pre ++ a :: b :: rest) = .returned b := by
  induction pre with
  | nil =>
    simp only [List.nil_append, lookupLoop, if_neg ha0, if_true, List.headD_cons]
    rw [if_pos hb0]
  | cons h t ih =>
    have h1 : h ≠ NULL := fun e => hpre (by simp [e])
    have h2 : h ≠ a := fun e => ha (by simp [e])
    simp only [List.cons_append, lookupLoop, if_neg h1, if_neg h2]
    exact ih (fun m => hpre (List.mem_cons_of_mem _ m))
      (fun m => ha (List.mem_cons_of_mem _ m))

theorem lookupLoop_append_last (pre : List EFI_HANDLE) (a : EFI_HANDLE)
    (hpre : NULL ∉ pre) (ha : a ∉ pre) (ha0 : a ≠ NULL) :
    lookupLoop a (pre ++ [a]) = .done NULL true := by
  induction pre with
  | nil =>
    simp only [List.nil_append, lookupLoop, if_neg ha0, if_true, List.headD_nil]
    rw [if_neg (not_not.mpr rfl)]
  | cons h t ih =>
    have h1 : h ≠ NULL := fun e => hpre (by simp [e])
    have h2 : h ≠ a := fun e => ha (by simp [e])
    simp only [List.cons_append, lookupLoop, if_neg h1, if_neg h2]
    exact ih (fun m => hpre (List.mem_cons_of_mem _ m))
      (fun m => ha (List.mem_cons_of_mem _ m))

theorem headD_append_cons_ne (pre : List EFI_HANDLE) (a : EFI_HANDLE)
    (rest : List EFI_HANDLE) (hpre : NULL ∉ pre) (ha0 : a ≠ NULL) :
    (pre ++ a :: rest).headD NULL ≠ NULL := by
  cases pre with
  | nil => exact ha0
  | cons h t => exact fun e => hpre (by simp at e; simp [e])

/-- The query at an entry that is followed by another entry. -/
theorem getDriver_at_mid {σ : Type} (pre : List EFI_HANDLE) (a b : EFI_HANDLE)
    (rest : List EFI_HANDLE) (hpre : NULL ∉ pre) (ha : a ∉ pre) (ha0 : a ≠ NULL)
    (hb0 : b ≠ NULL) (org : Option (EFI_PLATFORM_DRIVER_OVERRIDE_GET_DRIVER σ))
    (This : Nat) (ControllerHandle : EFI_HANDLE) (hC : ControllerHandle ≠ NULL) (w : σ) :
    OcPlatformGetDriver (some (pre ++ a :: b :: rest)) org This ControllerHandle a w =
      ⟨[], some ⟨EFI_SUCCESS, b, w⟩⟩ := by
  unfold OcPlatformGetDriver
  rw [if_neg hC, noOverrides_of_head_ne _ (headD_append_cons_ne pre a _ hpre ha0)]
  simp only [Bool.false_eq_true, if_false, if_neg ha0, Option.getD_some,
    lookupLoop_append_mid pre a b rest hpre ha ha0 hb0]
  rfl

/-- The query at the last entry, no original saved. -/
theorem getDriver_at_last_none {σ : Type} (pre : List EFI_HANDLE) (a : EFI_HANDLE)
    (hpre : NULL ∉ pre) (ha : a ∉ pre) (ha0 : a ≠ NULL)
    (This : Nat) (ControllerHandle : EFI_HANDLE) (hC : ControllerHandle ≠ NULL) (w : σ) :
    @OcPlatformGetDriver σ (some (pre ++ [a])) none This ControllerHandle a w =
      ⟨[], some ⟨EFI_NOT_FOUND, NULL, w⟩⟩ := by
  unfold OcPlatformGetDriver
  rw [if_neg hC, noOverrides_of_head_ne _ (headD_append_cons_ne pre a _ hpre ha0)]
  simp only [Bool.false_eq_true, if_false, if_neg ha0, Option.getD_some,
    lookupLoop_append_last pre a hpre ha ha0]
  rfl

/-- The query at the last entry, an original saved. -/
theorem getDriver_at_last_some {σ : Type} (pre : List EFI_HANDLE) (a : EFI_HANDLE)
    (hpre : NULL ∉ pre) (ha : a ∉ pre) (ha0 : a ≠ NULL)
    (org : EFI_PLATFORM_DRIVER_OVERRIDE_GET_DRIVER σ)
    (This : Nat) (ControllerHandle : EFI_HANDLE) (hC : ControllerHandle ≠ NULL) (w : σ) :
    OcPlatformGetDriver (some (pre ++ [a])) (some org) This ControllerHandle a w =
      ⟨[⟨This, ControllerHandle, NULL⟩], org This ControllerHandle NULL w⟩ := by
  unfold OcPlatformGetDriver
  rw [if_neg hC, noOverrides_of_head_ne _ (headD_append_cons_ne pre a _ hpre ha0)]
  simp only [Bool.false_eq_true, if_false, if_neg ha0, Option.getD_some,
    lookupLoop_append_last pre a hpre ha ha0]
  rfl

/-- The query at a cursor outside the list, an original saved. -/
theorem getDriver_forward_unknown {σ : Type} (P : List EFI_HANDLE)
    (hP : P.headD NULL ≠ NULL) (c : EFI_HANDLE) (hc0 : c ≠ NULL) (hc : c ∉ P)
    (org : EFI_PLATFORM_DRIVER_OVERRIDE_GET_DRIVER σ)
    (This : Nat) (ControllerHandle : EFI_HANDLE) (hC : ControllerHandle ≠ NULL) (w : σ) :
    OcPlatformGetDriver (some P) (some org) This ControllerHandle c w =
      ⟨[⟨This, ControllerHandle, c⟩], org This ControllerHandle c w⟩ := by
  unfold OcPlatformGetDriver
  rw [if_neg hC, noOverrides_of_head_ne P hP]
  simp only [Bool.false_eq_true, if_false, if_neg hc0, Option.getD_some,
    lookupLoop_not_mem c P hc]
  rfl

/-- The query with a null cursor on a non-empty list. -/
theorem getDriver_first {σ : Type} (a : EFI_HANDLE) (rest : List EFI_HANDLE)
    (ha0 : a ≠ NULL) (org : Option (EFI_PLATFORM_DRIVER_OVERRIDE_GET_DRIVER σ))
    (This : Nat) (ControllerHandle : EFI_HANDLE) (hC : ControllerHandle ≠ NULL) (w : σ) :
    OcPlatformGetDriver (some (a :: rest)) org This ControllerHandle NULL w =
      ⟨[], some ⟨EFI_SUCCESS, a, w⟩⟩ := by
  unfold OcPlatformGetDriver
  rw [if_neg hC, noOverrides_of_head_ne (a :: rest) ha0]
  rfl

/-- Walking the priority list: started at an entry `a` of a duplicate-free list
without null entries, the queries return the entries after `a` in order; `tl`
is what the enumeration does from the last entry on. -/
theorem runQueries_priority {σ : Type} (P : List EFI_HANDLE) (h0 : NULL ∉ P)
    (hnd : P.Nodup) (org : Option (EFI_PLATFORM_DRIVER_OVERRIDE_GET_DRIVER σ))
    (This : Nat) (ControllerHandle : EFI_HANDLE) (hC : ControllerHandle ≠ NULL) (w : σ)
    (m : Nat) (tl : List (GetDriverOutcome σ))
    (htl : ∀ pre z, P = pre ++ [z] →
      runQueries (OcPlatformGetDriver (some P) org This ControllerHandle) m z w = tl) :
    ∀ (rest pre : List EFI_HANDLE) (a : EFI_HANDLE), P = pre ++ a :: rest →
      runQueries (OcPlatformGetDriver (some P) org This ControllerHandle)
          (rest.length + m) a w =
        rest.map (fun p => (⟨[], some ⟨EFI_SUCCESS, p, w⟩⟩ : GetDriverOutcome σ)) ++ tl := by
  intro rest
  induction rest with
  | nil =>
    intro pre a e
    simp only [List.length_nil, Nat.zero_add, List.map_nil, List.nil_append]
    exact htl pre a e
  | cons b rest ih =>
    intro pre a e
    have hmem0 : ∀ x, x ∈ P → x ≠ NULL := fun x hx e0 => h0 (e0 ▸ hx)
    have ha0 : a ≠ NULL := hmem0 a (by rw [e]; simp)
    have hb0 : b ≠ NULL := hmem0 b (by rw [e]; simp)
    have hpre : NULL ∉ pre := fun m0 => h0 (by rw [e]; simp [m0])
    have ha : a ∉ pre := by
      rw [e] at hnd
      have := (List.nodup_append.mp hnd).2.2
      intro hm
      exact this hm (by simp)
    have hq : OcPlatformGetDriver (some P) org This ControllerHandle a w =
        ⟨[], some ⟨EFI_SUCCESS, b, w⟩⟩ := by
      rw [e]
      exact getDriver_at_mid pre a b rest hpre ha ha0 hb0 org This ControllerHandle hC w
    have hlen : (b :: rest).length + m = (rest.length + m) + 1 := by
      simp only [List.length_cons]; omega
    rw [hlen, runQueries_of_success _ _ a w ⟨EFI_SUCCESS, b, w⟩ (by rw [hq]) rfl, hq]
    simp only [List.map_cons, List.cons_append]
    rw [ih (pre ++ [a]) b (by rw [e]; simp)]

theorem last_facts (P pre : List EFI_HANDLE) (z : EFI_HANDLE) (h0 : NULL ∉ P)
    (hnd : P.Nodup) (e : P = pre ++ [z]) : NULL ∉ pre ∧ z ∉ pre ∧ z ≠ NULL := by
  subst e
  refine ⟨fun m => h0 (by simp [m]), ?_, fun e0 => h0 (by simp [e0])⟩
  intro hm
  exact (List.nodup_append.mp hnd).2.2 hm (by simp)

/-- The whole traversal from a null cursor, `fin` being the outcome of the
query that follows the last entry. -/
theorem runQueries_whole_list {σ : Type} (P : List EFI_HANDLE) (h0 : NULL ∉ P)
    (hnd : P.Nodup) (org : Option (EFI_PLATFORM_DRIVER_OVERRIDE_GET_DRIVER σ))
    (This : Nat) (ControllerHandle : EFI_HANDLE) (hC : ControllerHandle ≠ NULL) (w : σ)
    (m : Nat) (tl : List (GetDriverOutcome σ))
    (hempty : P = [] →
      runQueries (OcPlatformGetDriver (some P) org This ControllerHandle) (m + 1) NULL w = tl)
    (hlast : ∀ pre z, P = pre ++ [z] →
      runQueries (OcPlatformGetDriver (some P) org This ControllerHandle) (m + 1) z w = tl) :
    runQueries (OcPlatformGetDriver (some P) org This ControllerHandle)
        (P.length + (m + 1)) NULL w =
      P.map (fun p => (⟨[], some ⟨EFI_SUCCESS, p, w⟩⟩ : GetDriverOutcome σ)) ++ tl := by
  cases P with
  | nil =>
    simp only [List.length_nil, Nat.zero_add, List.map_nil, List.nil_append]
    exact hempty rfl
  | cons a rest =>
    have ha0 : a ≠ NULL := fun e0 => h0 (by simp [e0])
    have hq := getDriver_first a rest ha0 org This ControllerHandle hC w
    have hlen : (a :: rest).length + (m + 1) = (rest.length + (m + 1)) + 1 := by
      simp only [List.length_cons]; omega
    rw [hlen, runQueries_of_success _ _ NULL w ⟨EFI_SUCCESS, a, w⟩ (by rw [hq]) rfl, hq]
    simp only [List.map_cons, List.cons_append]
    rw [runQueries_priority (a :: rest) h0 hnd org This ControllerHandle hC w (m + 1) tl
      hlast rest [] a rfl]

theorem entryAfter_append (qpre : List EFI_HANDLE) (c : EFI_HANDLE)
    (qrest : List EFI_HANDLE) (hc : c ∉ qpre) :
    entryAfter (qpre ++ c :: qrest) c = qrest.headD NULL := by
  induction qpre with
  | nil => simp only [List.nil_append, entryAfter, if_true]
  | cons h t ih =>
    have h2 : h ≠ c := fun e => hc (by simp [e])
    simp only [List.cons_append, entryAfter, if_neg h2]
    exact ih (fun m => hc (List.mem_cons_of_mem _ m))

theorem chainGetDriver_wellBehaved {σ : Type} (Q : List EFI_HANDLE) :
    WellBehavedChain (@chainGetDriver σ Q) Q := by
  intro This ControllerHandle cursor w hC hcur
  have hcond : ¬ (cursor ≠ NULL ∧ cursor ∉ Q) := by
    rintro ⟨h1, h2⟩
    rcases hcur with h | h
    · exact h1 h
    · exact h2 h
  by_cases hn : chainNext Q cursor ≠ NULL
  · refine ⟨⟨EFI_SUCCESS, chainNext Q cursor, w⟩, ?_, fun _ => ⟨rfl, rfl⟩,
      fun h => absurd h hn⟩
    unfold chainGetDriver
    simp only [if_neg hC, if_neg hcond, if_pos hn]
  · refine ⟨⟨EFI_NOT_FOUND, cursor, w⟩, ?_, fun h => absurd h hn, fun _ => rfl⟩
    unfold chainGetDriver
    simp only [if_neg hC, if_neg hcond, if_neg hn]

/-- Walking the original's chain: started at an entry `c` of `Q`, which is
disjoint from the priority list, the queries are forwarded and the caller sees
the entries after `c` in order and then not-found. -/
theorem runQueries_original {σ : Type} (P Q : List EFI_HANDLE)
    (hP : P.headD NULL ≠ NULL) (hQ0 : NULL ∉ Q) (hQnd : Q.Nodup)
    (hdisj : ∀ h, h ∈ Q → h ∉ P) (f : EFI_PLATFORM_DRIVER_OVERRIDE_GET_DRIVER σ)
    (hchain : WellBehavedChain f Q)
    (This : Nat) (ControllerHandle : EFI_HANDLE) (hC : ControllerHandle ≠ NULL) (k : Nat) :
    ∀ (qrest qpre : List EFI_HANDLE) (c : EFI_HANDLE) (w : σ), Q = qpre ++ c :: qrest →
      (runQueries (OcPlatformGetDriver (some P) (some f) This ControllerHandle)
          (qrest.length + 1 + k) c w).map seen =
        qrest.map Seen.driver ++ [Seen.failed EFI_NOT_FOUND] := by
  intro qrest
  induction qrest with
  | nil =>
    intro qpre c w e
    have hcQ : c ∈ Q := by rw [e]; simp
    have hc0 : c ≠ NULL := fun e0 => hQ0 (e0 ▸ hcQ)
    have hcpre : c ∉ qpre := by
      rw [e] at hQnd
      intro hm
      exact (List.nodup_append.mp hQnd).2.2 hm (by simp)
    have hnext : chainNext Q c = NULL := by
      unfold chainNext
      rw [if_neg hc0, e, entryAfter_append qpre c [] hcpre]
      rfl
    obtain ⟨r, hr, -, hnf⟩ := hchain This ControllerHandle c w hC (Or.inr hcQ)
    have hs : r.Status ≠ EFI_SUCCESS := by
      rw [hnf hnext]; exact notFound_ne_success
    have hq := getDriver_forward_unknown P hP c hc0 (hdisj c hcQ) f This ControllerHandle hC w
    have hret : (OcPlatformGetDriver (some P) (some f) This ControllerHandle c w).ret =
        some r := by rw [hq]; exact hr
    have hlen : ([] : List EFI_HANDLE).length + 1 + k = k + 1 := by
      simp only [List.length_nil]; omega
    rw [hlen, runQueries_of_failure _ _ c w r hret hs]
    simp only [List.map_cons, List.map_nil, List.nil_append]
    rw [seen_of_failure _ r hret hs, hnf hnext]
  | cons d qrest ih =>
    intro qpre c w e
    have hcQ : c ∈ Q := by rw [e]; simp
    have hdQ : d ∈ Q := by rw [e]; simp
    have hc0 : c ≠ NULL := fun e0 => hQ0 (e0 ▸ hcQ)
    have hd0 : d ≠ NULL := fun e0 => hQ0 (e0 ▸ hdQ)
    have hcpre : c ∉ qpre := by
      rw [e] at hQnd
      intro hm
      exact (List.nodup_append.mp hQnd).2.2 hm (by simp)
    have hnext : chainNext Q c = d := by
      unfold chainNext
      rw [if_neg hc0, e, entryAfter_append qpre c (d :: qrest) hcpre]
      rfl
    obtain ⟨r, hr, hsucc, -⟩ := hchain This ControllerHandle c w hC (Or.inr hcQ)
    obtain ⟨hs, hd⟩ := hsucc (by rw [hnext]; exact hd0)
    rw [hnext] at hd
    have hq := getDriver_forward_unknown P hP c hc0 (hdisj c hcQ) f This ControllerHandle hC w
    have hret : (OcPlatformGetDriver (some P) (some f) This ControllerHandle c w).ret =
        some r := by rw [hq]; exact hr
    have hlen : (d :: qrest).length + 1 + k = (qrest.length + 1 + k) + 1 := by
      simp only [List.length_cons]; omega
    rw [hlen, runQueries_of_success _ _ c w r hret hs]
    simp only [List.map_cons, List.cons_append]
    rw [seen_of_success _ r hret hs, hd, ih (qpre ++ [c]) d r.world (by rw [e]; simp)]

/-- What the caller sees from the last entry of the priority list on, when the
original is a well-behaved chain over `Q`. -/
theorem runQueries_handover {σ : Type} (pre : List EFI_HANDLE) (z : EFI_HANDLE)
    (Q : List EFI_HANDLE) (hpre : NULL ∉ pre) (hz : z ∉ pre) (hz0 : z ≠ NULL)
    (hQ0 : NULL ∉ Q) (hQnd : Q.Nodup) (hdisj : ∀ h, h ∈ Q → h ∉ pre ++ [z])
    (f : EFI_PLATFORM_DRIVER_OVERRIDE_GET_DRIVER σ) (hchain : WellBehavedChain f Q)
    (This : Nat) (ControllerHandle : EFI_HANDLE) (hC : ControllerHandle ≠ NULL) (k : Nat)
    (w : σ) :
    (runQueries (OcPlatformGetDriver (some (pre ++ [z])) (some f) This ControllerHandle)
        (Q.length + k + 1) z w).map seen =
      Q.map Seen.driver ++ [Seen.failed EFI_NOT_FOUND] := by
  have hq := getDriver_at_last_some pre z hpre hz hz0 f This ControllerHandle hC w
  obtain ⟨r, hr, hsucc, hnf⟩ := hchain This ControllerHandle NULL w hC (Or.inl rfl)
  have hret : (OcPlatformGetDriver (some (pre ++ [z])) (some f) This ControllerHandle
      z w).ret = some r := by rw [hq]; exact hr
  cases Q with
  | nil =>
    have hnext : chainNext [] NULL = NULL := rfl
    have hs : r.Status ≠ EFI_SUCCESS := by
      rw [hnf hnext]; exact notFound_ne_success
    rw [runQueries_of_failure _ _ z w r hret hs]
    simp only [List.map_cons, List.map_nil, List.nil_append]
    rw [seen_of_failure _ r hret hs, hnf hnext]
  | cons c qrest =>
    have hc0 : c ≠ NULL := fun e0 => hQ0 (by simp [e0])
    have hnext : chainNext (c :: qrest) NULL = c := rfl
    obtain ⟨hs, hd⟩ := hsucc (by rw [hnext]; exact hc0)
    rw [hnext] at hd
    have hlen : (c :: qrest).length + k + 1 = (qrest.length + 1 + k) + 1 := by
      simp only [List.length_cons]
    rw [hlen, runQueries_of_success _ _ z w r hret hs]
    simp only [List.map_cons, List.cons_append]
    rw [seen_of_success _ r hret hs, hd,
      runQueries_original (pre ++ [z]) (c :: qrest)
        (headD_append_cons_ne pre z [] hpre hz0) hQ0 hQnd hdisj f hchain This
        ControllerHandle hC k qrest [] c r.world rfl]

/-! ## Enumeration of the priority list -/

/-- C3, as stated, fails: the priority list `[5, 6, 5]` has three non-null
entries, yet the fourth query (cursor 5, matched at its first occurrence)
succeeds with 6 instead of reporting not-found. -/
theorem enumerate_repeated_entry_counterexample :
    NULL ∉ ([5, 6, 5] : List EFI_HANDLE) ∧
    (runQueries (@OcPlatformGetDriver Unit (some [5, 6, 5]) none 9 1) 4 NULL ()).map seen =
      [.driver 5, .driver 6, .driver 5, .driver 6] ∧
    (runQueries (@OcPlatformGetDriver Unit (some [5, 6, 5]) none 9 1) 4 NULL ()).map seen ≠
      [.driver 5, .driver 6, .driver 5, .failed EFI_NOT_FOUND] := by
  decide

/-- C3, amended: for a priority list `P` of pairwise distinct non-null entries
and a non-null controller, `P.length + 1` queries from a null cursor, each fed
the handle the previous one returned, are: one success per entry of `P`, in
order, with no call to the original and no change of the firmware state; then,
without a saved original, not-found, and with one, exactly the call of the
original with the same controller and a null cursor. -/
theorem enumerate_priority_list_once {σ : Type} (P : List EFI_HANDLE) (h0 : NULL ∉ P)
    (hnd : P.Nodup) (This : Nat) (ControllerHandle : EFI_HANDLE)
    (hC : ControllerHandle ≠ NULL) (w : σ) :
    runQueries (@OcPlatformGetDriver σ (some P) none This ControllerHandle)
        (P.length + 1) NULL w =
      P.map (fun p => (⟨[], some ⟨EFI_SUCCESS, p, w⟩⟩ : GetDriverOutcome σ)) ++
        [⟨[], some ⟨EFI_NOT_FOUND, NULL, w⟩⟩] ∧
    ∀ org : EFI_PLATFORM_DRIVER_OVERRIDE_GET_DRIVER σ,
      runQueries (OcPlatformGetDriver (some P) (some org) This ControllerHandle)
          (P.length + 1) NULL w =
        P.map (fun p => (⟨[], some ⟨EFI_SUCCESS, p, w⟩⟩ : GetDriverOutcome σ)) ++
          [⟨[⟨This, ControllerHandle, NULL⟩], org This ControllerHandle NULL w⟩] := by
  constructor
  · refine runQueries_whole_list P h0 hnd none This ControllerHandle hC w 0 _ ?_ ?_
    · intro e
      subst e
      rw [runQueries_one]
      unfold OcPlatformGetDriver
      rw [if_neg hC]
      rfl
    · intro pre z e
      obtain ⟨h1, h2, h3⟩ := last_facts P pre z h0 hnd e
      rw [runQueries_one, e,
        getDriver_at_last_none pre z h1 h2 h3 This ControllerHandle hC w]
  · intro org
    refine runQueries_whole_list P h0 hnd (some org) This ControllerHandle hC w 0 _ ?_ ?_
    · intro e
      subst e
      rw [runQueries_one]
      unfold OcPlatformGetDriver
      rw [if_neg hC]
      rfl
    · intro pre z e
      obtain ⟨h1, h2, h3⟩ := last_facts P pre z h0 hnd e
      rw [runQueries_one, e,
        getDriver_at_last_some pre z h1 h2 h3 org This ControllerHandle hC w]

theorem enumerate_priority_list_once_witness :
    NULL ∉ ([5, 6] : List EFI_HANDLE) ∧ ([5, 6] : List EFI_HANDLE).Nodup ∧
    (1 : EFI_HANDLE) ≠ NULL ∧
    (runQueries (@OcPlatformGetDriver Unit (some [5, 6]) none 9 1)
        (([5, 6] : List EFI_HANDLE).length + 1) NULL () =
      ([5, 6] : List EFI_HANDLE).map
          (fun p => (⟨[], some ⟨EFI_SUCCESS, p, ()⟩⟩ : GetDriverOutcome Unit)) ++
        [⟨[], some ⟨EFI_NOT_FOUND, NULL, ()⟩⟩] ∧
     ∀ org : EFI_PLATFORM_DRIVER_OVERRIDE_GET_DRIVER Unit,
      runQueries (OcPlatformGetDriver (some [5, 6]) (some org) 9 1)
          (([5, 6] : List EFI_HANDLE).length + 1) NULL () =
        ([5, 6] : List EFI_HANDLE).map
            (fun p => (⟨[], some ⟨EFI_SUCCESS, p, ()⟩⟩ : GetDriverOutcome Unit)) ++
          [⟨[⟨9, 1, NULL⟩], org 9 1 NULL ()⟩]) :=
  ⟨by decide, by decide, by decide,
    enumerate_priority_list_once [5, 6] (by decide) (by decide) 9 1 (by decide) ()⟩

theorem map_seen_success {σ : Type} (P : List EFI_HANDLE) (w : σ) :
    (P.map (fun p => (⟨[], some ⟨EFI_SUCCESS, p, w⟩⟩ : GetDriverOutcome σ))).map seen =
      P.map Seen.driver := by
  rw [List.map_map]
  rfl

/-- C2: `P` is a non-empty priority list of pairwise distinct non-null handles,
the controller is non-null, and the original is either absent (`Q` empty) or a
well-behaved chain over a list `Q` of pairwise distinct non-null handles
disjoint from `P`.  A caller that starts with a null cursor and feeds back each
returned handle sees success with the entries of `P` in order, then the
entries of `Q` in order, then not-found, after which it stops; this takes
`P.length + Q.length + 1` queries, whatever larger number it was ready to
make. -/
theorem enumerate_priority_then_original {σ : Type} (P Q : List EFI_HANDLE)
    (hPne : P ≠ []) (hP0 : NULL ∉ P) (hPnd : P.Nodup) (hQ0 : NULL ∉ Q) (hQnd : Q.Nodup)
    (hdisj : ∀ h, h ∈ P → h ∉ Q)
    (org : Option (EFI_PLATFORM_DRIVER_OVERRIDE_GET_DRIVER σ))
    (horg : (org = none ∧ Q = []) ∨ ∃ f, org = some f ∧ WellBehavedChain f Q)
    (This : Nat) (ControllerHandle : EFI_HANDLE) (hC : ControllerHandle ≠ NULL)
    (w : σ) (k : Nat) :
    (runQueries (OcPlatformGetDriver (some P) org This ControllerHandle)
        (P.length + Q.length + 1 + k) NULL w).map seen =
      (P ++ Q).map Seen.driver ++ [Seen.failed EFI_NOT_FOUND] := by
  obtain ⟨pre0, z0, e0⟩ : ∃ pre0 z0, P = pre0 ++ [z0] := by
    rcases List.eq_nil_or_concat P with h | ⟨L, b, h⟩
    · exact absurd h hPne
    · exact ⟨L, b, by rw [h, List.concat_eq_append]⟩
  obtain ⟨h1, h2, h3⟩ := last_facts P pre0 z0 hP0 hPnd e0
  have hfuel : P.length + Q.length + 1 + k = P.length + ((Q.length + k) + 1) := by omega
  have hwhole := runQueries_whole_list P hP0 hPnd org This ControllerHandle hC w
    (Q.length + k)
    (runQueries (OcPlatformGetDriver (some P) org This ControllerHandle)
      (Q.length + k + 1) z0 w)
    (fun e => absurd e hPne)
    (fun pre z e => by
      have hz : [z] = [z0] := List.append_inj_right' (e.symm.trans e0) rfl
      rw [List.cons.inj hz |>.1])
  rw [hfuel, hwhole, List.map_append, map_seen_success, List.map_append,
    List.append_assoc]
  congr 1
  rcases horg with ⟨hnone, hQ⟩ | ⟨f, hsome, hchain⟩
  · subst hnone
    subst hQ
    have hq : @OcPlatformGetDriver σ (some P) none This ControllerHandle z0 w =
        ⟨[], some ⟨EFI_NOT_FOUND, NULL, w⟩⟩ := by
      rw [e0]
      exact getDriver_at_last_none pre0 z0 h1 h2 h3 This ControllerHandle hC w
    rw [runQueries_of_failure _ _ z0 w ⟨EFI_NOT_FOUND, NULL, w⟩ (by rw [hq])
      notFound_ne_success, hq]
    rfl
  · subst hsome
    have hd : ∀ h, h ∈ Q → h ∉ pre0 ++ [z0] := by
      intro h hQ hP
      rw [← e0] at hP
      exact hdisj h hP hQ
    have := runQueries_handover pre0 z0 Q h1 h2 h3 hQ0 hQnd hd f hchain This
      ControllerHandle hC k w
    rw [← e0] at this
    exact this

theorem enumerate_priority_then_original_witness :
    ([5, 6] : List EFI_HANDLE) ≠ [] ∧ NULL ∉ ([5, 6] : List EFI_HANDLE) ∧
    ([5, 6] : List EFI_HANDLE).Nodup ∧ NULL ∉ ([7, 8] : List EFI_HANDLE) ∧
    ([7, 8] : List EFI_HANDLE).Nodup ∧
    (∀ h, h ∈ ([5, 6] : List EFI_HANDLE) → h ∉ ([7, 8] : List EFI_HANDLE)) ∧
    (1 : EFI_HANDLE) ≠ NULL ∧
    (runQueries (@OcPlatformGetDriver Unit (some [5, 6]) (some (chainGetDriver [7, 8])) 9 1)
        (([5, 6] : List EFI_HANDLE).length + ([7, 8] : List EFI_HANDLE).length + 1 + 0)
        NULL ()).map seen =
      (([5, 6] : List EFI_HANDLE) ++ [7, 8]).map Seen.driver ++
        [Seen.failed EFI_NOT_FOUND] :=
  ⟨by decide, by decide, by decide, by decide, by decide, by decide, by decide,
    enumerate_priority_then_original [5, 6] [7, 8] (by decide) (by decide) (by decide)
      (by decide) (by decide) (by decide) (some (chainGetDriver [7, 8]))
      (Or.inr ⟨chainGetDriver [7, 8], rfl, chainGetDriver_wellBehaved [7, 8]⟩)
      9 1 (by decide) () 0⟩

/-! ## The handle connector: helper lemmas -/

theorem isVetoedPath_of_mem (t : String) (h : t ∈ VetoedPathSet) :
    isVetoedPath t = true := by
  simp only [VetoedPathSet, List.mem_cons, List.mem_singleton, List.not_mem_nil,
    or_false] at h
  rcases h with h | h | h | h | h | h <;> subst h <;> decide

theorem vetoStep_vetoed {σ : Type} (gBS : BootServices σ) (h : EFI_HANDLE)
    (s : ConnectorState σ) (t : String) (htext : gBS.DevicePathText h s.world = some t)
    (hveto : isVetoedPath t = true) :
    vetoStep gBS h s =
      ⟨invalidateSignature h s.world, s.trace ++ [.signatureWrite h 0]⟩ := by
  simp only [vetoStep, htext, hveto, if_true]

theorem vetoStep_trace {σ : Type} (gBS : BootServices σ) (h : EFI_HANDLE)
    (s : ConnectorState σ) :
    ∃ ws : List EFI_HANDLE,
      (vetoStep gBS h s).trace = s.trace ++ ws.map (fun x => Event.signatureWrite x 0) := by
  unfold vetoStep
  cases gBS.DevicePathText h s.world with
  | none => exact ⟨[], by simp⟩
  | some t =>
    by_cases hv : isVetoedPath t = true
    · exact ⟨[h], by simp [hv]⟩
    · exact ⟨[], by simp [hv]⟩

theorem vetoStep_signature_zero {σ : Type} (gBS : BootServices σ) (h x : EFI_HANDLE)
    (s : ConnectorState σ) (hx : s.world.Signature x = 0) :
    (vetoStep gBS h s).world.Signature x = 0 := by
  unfold vetoStep
  cases gBS.DevicePathText h s.world with
  | none => exact hx
  | some t =>
    by_cases hv : isVetoedPath t = true
    · simp only [hv, if_true, invalidateSignature]
      by_cases e : x = h
      · simp [e]
      · simp [e, hx]
    · simp only [hv]
      exact hx

theorem vetoPass_trace {σ : Type} (gBS : BootServices σ) (hs : List EFI_HANDLE) :
    ∀ s : ConnectorState σ, ∃ ws : List EFI_HANDLE,
      (vetoPass gBS hs s).trace = s.trace ++ ws.map (fun x => Event.signatureWrite x 0) := by
  induction hs with
  | nil => exact fun s => ⟨[], by simp [vetoPass]⟩
  | cons h rest ih =>
    intro s
    obtain ⟨ws1, h1⟩ := vetoStep_trace gBS h s
    obtain ⟨ws2, h2⟩ := ih (vetoStep gBS h s)
    exact ⟨ws1 ++ ws2, by simp only [vetoPass, h2, h1, List.map_append, List.append_assoc]⟩

theorem vetoPass_signature_zero {σ : Type} (gBS : BootServices σ) (x : EFI_HANDLE)
    (hs : List EFI_HANDLE) :
    ∀ s : ConnectorState σ, s.world.Signature x = 0 →
      (vetoPass gBS hs s).world.Signature x = 0 := by
  induction hs with
  | nil => exact fun s hx => hx
  | cons h rest ih =>
    intro s hx
    exact ih (vetoStep gBS h s) (vetoStep_signature_zero gBS h x s hx)

theorem vetoPass_append {σ : Type} (gBS : BootServices σ) (pre post : List EFI_HANDLE) :
    ∀ s : ConnectorState σ,
      vetoPass gBS (pre ++ post) s = vetoPass gBS post (vetoPass gBS pre s) := by
  induction pre with
  | nil => exact fun s => rfl
  | cons h rest ih =>
    intro s
    simp only [List.cons_append, vetoPass]
    exact ih _

theorem connectStep_trace {σ : Type} (gBS : BootServices σ) (hb : List EFI_HANDLE)
    (c : EFI_HANDLE) (s : ConnectorState σ) :
    ∃ cs : List EFI_HANDLE,
      (connectStep gBS hb c s).trace =
        s.trace ++ cs.map (fun x => Event.connectController x true) := by
  unfold connectStep
  by_cases hc : handleLoop gBS s.world c hb true = true
  · exact ⟨[c], by simp [hc]⟩
  · exact ⟨[], by simp [hc]⟩

theorem connectPass_trace {σ : Type} (gBS : BootServices σ) (hb todo : List EFI_HANDLE) :
    ∀ s : ConnectorState σ, ∃ cs : List EFI_HANDLE,
      (connectPass gBS hb todo s).trace =
        s.trace ++ cs.map (fun x => Event.connectController x true) := by
  induction todo with
  | nil => exact fun s => ⟨[], by simp [connectPass]⟩
  | cons c rest ih =>
    intro s
    obtain ⟨cs1, h1⟩ := connectStep_trace gBS hb c s
    obtain ⟨cs2, h2⟩ := ih (connectStep gBS hb c s)
    exact ⟨cs1 ++ cs2, by simp only [connectPass, h2, h1, List.map_append, List.append_assoc]⟩

theorem OcConnectDrivers_of_located {σ : Type} (gBS : BootServices σ) (w : World σ)
    (hloc : EFI_ERROR (gBS.LocateHandleBuffer w).1 = false) :
    OcConnectDrivers gBS w =
      (EFI_SUCCESS,
        connectPass gBS (gBS.LocateHandleBuffer w).2 (gBS.LocateHandleBuffer w).2
          (vetoPass gBS (gBS.LocateHandleBuffer w).2 ⟨w, []⟩)) := by
  unfold OcConnectDrivers
  simp only [hloc, Bool.false_eq_true, if_false]

/-! ## The veto -/

/-- C10, as stated, fails: in the example environment handle 1 renders to the
vetoed text `PciRoot(0x0)`, and `OcConnectDrivers` passes it to
`ConnectController` after zeroing its signature. -/
theorem vetoed_handle_connected_counterexample :
    (exampleServices.LocateHandleBuffer exampleWorld).2 = [1, 2] ∧
    exampleServices.DevicePathText 1 exampleWorld = some "PciRoot(0x0)" ∧
    "PciRoot(0x0)" ∈ VetoedPathSet ∧
    (OcConnectDrivers exampleServices exampleWorld).2.trace =
      [.signatureWrite 1 0, .connectController 1 true, .connectController 2 true] ∧
    Event.connectController 1 true ∈
      (OcConnectDrivers exampleServices exampleWorld).2.trace := by
  decide

/-- C10, amended: when the handle snapshot is obtained, a snapshot handle whose
device path text, as rendered when the veto pass reaches it, equals an entry of
the vetoed path set has its `Signature` written to zero by the veto pass: the
signature is zero in the state in which the connect pass starts, and in the
events of `OcConnectDrivers` every signature write, the one for this handle
among them, comes before every `ConnectController` call.  (The handle itself
may still be passed to `ConnectController`.) -/
theorem vetoed_handle_invalidated_before_connect {σ : Type} (gBS : BootServices σ)
    (w : World σ) (hloc : EFI_ERROR (gBS.LocateHandleBuffer w).1 = false)
    (pre post : List EFI_HANDLE) (h : EFI_HANDLE)
    (hbuf : (gBS.LocateHandleBuffer w).2 = pre ++ h :: post) (t : String)
    (htext : gBS.DevicePathText h (vetoPass gBS pre ⟨w, []⟩).world = some t)
    (hveto : t ∈ VetoedPathSet) :
    (OcConnectDrivers gBS w).2 =
      connectPass gBS (gBS.LocateHandleBuffer w).2 (gBS.LocateHandleBuffer w).2
        (vetoPass gBS (gBS.LocateHandleBuffer w).2 ⟨w, []⟩) ∧
    (vetoPass gBS (gBS.LocateHandleBuffer w).2 ⟨w, []⟩).world.Signature h = 0 ∧
    ∃ writes connects : List EFI_HANDLE, h ∈ writes ∧
      (OcConnectDrivers gBS w).2.trace =
        writes.map (fun x => Event.signatureWrite x 0) ++
          connects.map (fun x => Event.connectController x true) := by
  have hstep := vetoStep_vetoed gBS h (vetoPass gBS pre ⟨w, []⟩) t htext
    (isVetoedPath_of_mem t hveto)
  have hsplit : vetoPass gBS (gBS.LocateHandleBuffer w).2 ⟨w, []⟩ =
      vetoPass gBS post
        ⟨invalidateSignature h (vetoPass gBS pre ⟨w, []⟩).world,
          (vetoPass gBS pre ⟨w, []⟩).trace ++ [.signatureWrite h 0]⟩ := by
    rw [hbuf, vetoPass_append]
    simp only [vetoPass]
    rw [hstep]
  refine ⟨by rw [OcConnectDrivers_of_located gBS w hloc], ?_, ?_⟩
  · rw [hsplit]
    apply vetoPass_signature_zero
    simp [invalidateSignature]
  · obtain ⟨ws1, h1⟩ := vetoPass_trace gBS pre (⟨w, []⟩ : ConnectorState σ)
    obtain ⟨ws2, h2⟩ := vetoPass_trace gBS post
      (⟨invalidateSignature h (vetoPass gBS pre ⟨w, []⟩).world,
        (vetoPass gBS pre ⟨w, []⟩).trace ++ [.signatureWrite h 0]⟩ : ConnectorState σ)
    obtain ⟨cs, h3⟩ := connectPass_trace gBS (gBS.LocateHandleBuffer w).2
      (gBS.LocateHandleBuffer w).2 (vetoPass gBS (gBS.LocateHandleBuffer w).2 ⟨w, []⟩)
    refine ⟨ws1 ++ [h] ++ ws2, cs, by simp, ?_⟩
    rw [OcConnectDrivers_of_located gBS w hloc]
    dsimp only
    rw [h3, hsplit, h2]
    simp only [h1, List.nil_append, List.map_append, List.map_cons, List.map_nil,
      List.append_assoc]

theorem vetoed_handle_invalidated_before_connect_witness :
    EFI_ERROR (exampleServices.LocateHandleBuffer exampleWorld).1 = false ∧
    (exampleServices.LocateHandleBuffer exampleWorld).2 = [] ++ 1 :: [2] ∧
    exampleServices.DevicePathText 1 (vetoPass exampleServices [] ⟨exampleWorld, []⟩).world =
      some "PciRoot(0x0)" ∧
    "PciRoot(0x0)" ∈ VetoedPathSet ∧
    ((OcConnectDrivers exampleServices exampleWorld).2 =
      connectPass exampleServices (exampleServices.LocateHandleBuffer exampleWorld).2
        (exampleServices.LocateHandleBuffer exampleWorld).2
        (vetoPass exampleServices (exampleServices.LocateHandleBuffer exampleWorld).2
          ⟨exampleWorld, []⟩) ∧
     (vetoPass exampleServices (exampleServices.LocateHandleBuffer exampleWorld).2
        ⟨exampleWorld, []⟩).world.Signature 1 = 0 ∧
     ∃ writes connects : List EFI_HANDLE, 1 ∈ writes ∧
      (OcConnectDrivers exampleServices exampleWorld).2.trace =
        writes.map (fun x => Event.signatureWrite x 0) ++
          connects.map (fun x => Event.connectController x true)) :=
  ⟨by decide, by decide, by decide, by decide,
    vetoed_handle_invalidated_before_connect exampleServices exampleWorld (by decide)
      [] [2] 1 (by decide) "PciRoot(0x0)" (by decide) (by decide)⟩

/-! ## The child scan -/

theorem infoLoop_false (c : EFI_HANDLE) (l : List EFI_OPEN_PROTOCOL_INFORMATION_ENTRY) :
    infoLoop c l false = false := by
  cases l <;> simp [infoLoop]

theorem infoLoop_true (c : EFI_HANDLE) (l : List EFI_OPEN_PROTOCOL_INFORMATION_ENTRY) :
    infoLoop c l true = !l.any (isChildEntry c) := by
  induction l with
  | nil => rfl
  | cons i rest ih =>
    simp only [infoLoop, if_true, List.any_cons]
    by_cases hc : i.ControllerHandle = c ∧
        i.Attributes &&& EFI_OPEN_PROTOCOL_BY_CHILD_CONTROLLER =
          EFI_OPEN_PROTOCOL_BY_CHILD_CONTROLLER
    · have : isChildEntry c i = true := decide_eq_true hc
      rw [if_pos hc, infoLoop_false, this]
      rfl
    · have : isChildEntry c i = false := decide_eq_false hc
      rw [if_neg hc, ih, this]
      rfl

theorem protocolLoop_false {σ : Type} (gBS : BootServices σ) (w : World σ)
    (c h : EFI_HANDLE) (l : List EFI_GUID) : protocolLoop gBS w c h l false = false := by
  cases l <;> simp [protocolLoop]

theorem protocolLoop_true {σ : Type} (gBS : BootServices σ) (w : World σ)
    (c h : EFI_HANDLE) (l : List EFI_GUID) :
    protocolLoop gBS w c h l true =
      !l.any (fun Guid =>
        !EFI_ERROR (gBS.OpenProtocolInformation h Guid w).1 &&
        (gBS.OpenProtocolInformation h Guid w).2.any (isChildEntry c)) := by
  induction l with
  | nil => rfl
  | cons g rest ih =>
    simp only [protocolLoop, if_true, List.any_cons, infoLoop_true]
    cases he : EFI_ERROR (gBS.OpenProtocolInformation h g w).1
    · cases ha : (gBS.OpenProtocolInformation h g w).2.any (isChildEntry c)
      · simp [ih]
      · simp [protocolLoop_false]
    · simp [ih]

theorem handleLoop_false {σ : Type} (gBS : BootServices σ) (w : World σ)
    (c : EFI_HANDLE) (l : List EFI_HANDLE) : handleLoop gBS w c l false = false := by
  cases l <;> simp [handleLoop]

/-- The scan of the source computes the child test of the specification:
`Connect` stays true exactly when the candidate is not detected as a child. -/
theorem handleLoop_true {σ : Type} (gBS : BootServices σ) (w : World σ)
    (c : EFI_HANDLE) (l : List EFI_HANDLE) :
    handleLoop gBS w c l true = !detectedAsChild gBS w c l := by
  induction l with
  | nil => rfl
  | cons h rest ih =>
    simp only [handleLoop, if_true, detectedAsChild, List.any_cons, protocolLoop_true]
    cases he : EFI_ERROR (gBS.ProtocolsPerHandle h w).1
    · cases ha : (gBS.ProtocolsPerHandle h w).2.any (fun Guid =>
          !EFI_ERROR (gBS.OpenProtocolInformation h Guid w).1 &&
          (gBS.OpenProtocolInformation h Guid w).2.any (isChildEntry c))
      · simp [ih, detectedAsChild]
      · simp [handleLoop_false]
    · simp [ih, detectedAsChild]

theorem detectedAsChild_of_entry {σ : Type} (gBS : BootServices σ) (w : World σ)
    (c : EFI_HANDLE) (hb : List EFI_HANDLE) (Handle : EFI_HANDLE) (hH : Handle ∈ hb)
    (hp : EFI_ERROR (gBS.ProtocolsPerHandle Handle w).1 = false)
    (Guid : EFI_GUID) (hG : Guid ∈ (gBS.ProtocolsPerHandle Handle w).2)
    (ho : EFI_ERROR (gBS.OpenProtocolInformation Handle Guid w).1 = false)
    (info : EFI_OPEN_PROTOCOL_INFORMATION_ENTRY)
    (hi : info ∈ (gBS.OpenProtocolInformation Handle Guid w).2)
    (hc : info.ControllerHandle = c)
    (ha : info.Attributes &&& EFI_OPEN_PROTOCOL_BY_CHILD_CONTROLLER =
      EFI_OPEN_PROTOCOL_BY_CHILD_CONTROLLER) :
    detectedAsChild gBS w c hb = true := by
  unfold detectedAsChild
  rw [List.any_eq_true]
  refine ⟨Handle, hH, ?_⟩
  rw [hp, Bool.not_false, Bool.true_and, List.any_eq_true]
  refine ⟨Guid, hG, ?_⟩
  rw [ho, Bool.not_false, Bool.true_and, List.any_eq_true]
  exact ⟨info, hi, decide_eq_true ⟨hc, ha⟩⟩

theorem connectStep_of_child {σ : Type} (gBS : BootServices σ) (hb : List EFI_HANDLE)
    (c : EFI_HANDLE) (s : ConnectorState σ)
    (h : detectedAsChild gBS s.world c hb = true) : connectStep gBS hb c s = s := by
  unfold connectStep
  rw [handleLoop_true, h]
  rfl

theorem connectStep_of_not_child {σ : Type} (gBS : BootServices σ) (hb : List EFI_HANDLE)
    (c : EFI_HANDLE) (s : ConnectorState σ)
    (h : detectedAsChild gBS s.world c hb = false) :
    connectStep gBS hb c s =
      ⟨(gBS.ConnectController c true s.world).2,
        s.trace ++ [.connectController c true]⟩ := by
  unfold connectStep
  rw [handleLoop_true, h]
  rfl

theorem connectPass_append {σ : Type} (gBS : BootServices σ) (hb pre post : List EFI_HANDLE) :
    ∀ s : ConnectorState σ,
      connectPass gBS hb (pre ++ post) s =
        connectPass gBS hb post (connectPass gBS hb pre s) := by
  induction pre with
  | nil => exact fun s => rfl
  | cons h rest ih =>
    intro s
    simp only [List.cons_append, connectPass]
    exact ih _

/-- The calls of the connect loop: the handles it passes to `ConnectController`
form a sublist of the handles visited, and a handle visited once is among them
exactly when it is not detected as a child when its turn comes. -/
theorem connectPass_connects {σ : Type} (gBS : BootServices σ) (hb todo : List EFI_HANDLE) :
    ∀ s : ConnectorState σ, ∃ cs : List EFI_HANDLE,
      (connectPass gBS hb todo s).trace =
        s.trace ++ cs.map (fun x => Event.connectController x true) ∧
      cs.Sublist todo ∧
      ∀ (pre : List EFI_HANDLE) (c : EFI_HANDLE) (post : List EFI_HANDLE),
        todo = pre ++ c :: post → c ∉ pre → c ∉ post →
        (c ∈ cs ↔ detectedAsChild gBS (connectPass gBS hb pre s).world c hb = false) := by
  induction todo with
  | nil =>
    intro s
    refine ⟨[], by simp [connectPass], List.Sublist.refl _, ?_⟩
    intro pre c post e
    exact absurd e (by simp)
  | cons a rest ih =>
    intro s
    obtain ⟨cs2, ht, hsub, hmem⟩ := ih (connectStep gBS hb a s)
    cases ha : detectedAsChild gBS s.world a hb
    · have hstep := connectStep_of_not_child gBS hb a s ha
      refine ⟨a :: cs2, ?_, hsub.cons₂ a, ?_⟩
      · simp only [connectPass]
        rw [ht, hstep]
        simp only [List.map_cons, List.append_assoc, List.singleton_append]
      · intro pre c post e hpre hpost
        cases pre with
        | nil =>
          simp only [List.nil_append, List.cons.injEq] at e
          obtain ⟨e1, e2⟩ := e
          subst e1
          simp only [connectPass, List.mem_cons, true_or, true_iff]
          exact ha
        | cons p pre2 =>
          simp only [List.cons_append, List.cons.injEq] at e
          obtain ⟨e1, e2⟩ := e
          subst e1
          have hca : c ≠ a := fun h => hpre (by simp [h])
          have hpre2 : c ∉ pre2 := fun h => hpre (List.mem_cons_of_mem _ h)
          simp only [connectPass, List.mem_cons, hca, false_or]
          exact hmem pre2 c post e2 hpre2 hpost
    · have hstep := connectStep_of_child gBS hb a s ha
      refine ⟨cs2, ?_, hsub.cons a, ?_⟩
      · simp only [connectPass]
        rw [ht, hstep]
      · intro pre c post e hpre hpost
        cases pre with
        | nil =>
          simp only [List.nil_append, List.cons.injEq] at e
          obtain ⟨e1, e2⟩ := e
          subst e1
          subst e2
          simp only [connectPass, ha, Bool.true_eq_false, iff_false]
          exact fun h => hpost (hsub.subset h)
        | cons p pre2 =>
          simp only [List.cons_append, List.cons.injEq] at e
          obtain ⟨e1, e2⟩ := e
          subst e1
          have hpre2 : c ∉ pre2 := fun h => hpre (List.mem_cons_of_mem _ h)
          simp only [connectPass]
          exact hmem pre2 c post e2 hpre2 hpost

/-! ## The connect pass -/

/-- C11: `hb` is the snapshot, `c` the candidate at some position of it, and
`sc` the state in which the connect pass examines `c`.  If in that state some
handle of the snapshot has a protocol whose open-agent list (both queries
succeeding) holds an entry whose controller is `c` and whose attributes include
the by-child-controller flag, the iteration for `c` makes no
`ConnectController` call and changes nothing: `OcConnectDrivers` goes on with
the handles after `c` from the same state. -/
theorem child_candidate_not_connected {σ : Type} (gBS : BootServices σ) (w : World σ)
    (hloc : EFI_ERROR (gBS.LocateHandleBuffer w).1 = false)
    (hb pre post : List EFI_HANDLE) (c : EFI_HANDLE)
    (hhb : (gBS.LocateHandleBuffer w).2 = hb) (hsplit : hb = pre ++ c :: post)
    (sc : ConnectorState σ)
    (hsc : sc = connectPass gBS hb pre (vetoPass gBS hb ⟨w, []⟩))
    (Handle : EFI_HANDLE) (hH : Handle ∈ hb)
    (hp : EFI_ERROR (gBS.ProtocolsPerHandle Handle sc.world).1 = false)
    (Guid : EFI_GUID) (hG : Guid ∈ (gBS.ProtocolsPerHandle Handle sc.world).2)
    (ho : EFI_ERROR (gBS.OpenProtocolInformation Handle Guid sc.world).1 = false)
    (info : EFI_OPEN_PROTOCOL_INFORMATION_ENTRY)
    (hi : info ∈ (gBS.OpenProtocolInformation Handle Guid sc.world).2)
    (hc : info.ControllerHandle = c)
    (ha : info.Attributes &&& EFI_OPEN_PROTOCOL_BY_CHILD_CONTROLLER =
      EFI_OPEN_PROTOCOL_BY_CHILD_CONTROLLER) :
    connectStep gBS hb c sc = sc ∧
    (OcConnectDrivers gBS w).2 = connectPass gBS hb post sc := by
  have hchild := detectedAsChild_of_entry gBS sc.world c hb Handle hH hp Guid hG ho info
    hi hc ha
  have hstep := connectStep_of_child gBS hb c sc hchild
  refine ⟨hstep, ?_⟩
  rw [OcConnectDrivers_of_located gBS w hloc, hhb]
  dsimp only
  conv_lhs => arg 3; rw [hsplit]
  rw [connectPass_append, ← hsc]
  simp only [connectPass]
  rw [hstep]

theorem child_candidate_not_connected_witness :
    EFI_ERROR (exampleChildServices.LocateHandleBuffer exampleWorld).1 = false ∧
    (exampleChildServices.LocateHandleBuffer exampleWorld).2 = [1, 2, 3] ∧
    ([1, 2, 3] : List EFI_HANDLE) = [1] ++ 2 :: [3] ∧
    (1 : EFI_HANDLE) ∈ ([1, 2, 3] : List EFI_HANDLE) ∧
    (connectStep exampleChildServices [1, 2, 3] 2
        (connectPass exampleChildServices [1, 2, 3] [1]
          (vetoPass exampleChildServices [1, 2, 3] ⟨exampleWorld, []⟩)) =
      connectPass exampleChildServices [1, 2, 3] [1]
        (vetoPass exampleChildServices [1, 2, 3] ⟨exampleWorld, []⟩) ∧
     (OcConnectDrivers exampleChildServices exampleWorld).2 =
      connectPass exampleChildServices [1, 2, 3] [3]
        (connectPass exampleChildServices [1, 2, 3] [1]
          (vetoPass exampleChildServices [1, 2, 3] ⟨exampleWorld, []⟩))) :=
  ⟨by decide, by decide, by decide, by decide,
    child_candidate_not_connected exampleChildServices exampleWorld (by decide)
      [1, 2, 3] [1] [3] 2 (by decide) (by decide) _ rfl 1 (by decide) (by decide)
      100 (by decide) (by decide) ⟨9, 2, EFI_OPEN_PROTOCOL_BY_CHILD_CONTROLLER, 1⟩
      (by decide) (by decide) (by decide)⟩

/-- C12: for a snapshot `hb` of pairwise distinct handles, the events of
`OcConnectDrivers` are the signature writes of the veto pass followed by the
`ConnectController` calls of the connect pass, every call with the recursive
flag set.  The handles called form a sublist of the snapshot (snapshot order),
none is called more than once, and a snapshot handle is called exactly once if
it is not detected as a child when its turn comes, and not at all if it is;
this holds for every environment, whatever protocols and open-agent entries
the handles have, and whether or not the handle was vetoed. -/
theorem connect_once_per_handle {σ : Type} (gBS : BootServices σ) (w : World σ)
    (hloc : EFI_ERROR (gBS.LocateHandleBuffer w).1 = false)
    (hb : List EFI_HANDLE) (hhb : (gBS.LocateHandleBuffer w).2 = hb) (hnd : hb.Nodup) :
    ∃ writes connects : List EFI_HANDLE,
      (OcConnectDrivers gBS w).2.trace =
        writes.map (fun x => Event.signatureWrite x 0) ++
          connects.map (fun x => Event.connectController x true) ∧
      connects.Sublist hb ∧
      (∀ x, connects.count x ≤ 1) ∧
      ∀ (pre : List EFI_HANDLE) (c : EFI_HANDLE) (post : List EFI_HANDLE),
        hb = pre ++ c :: post →
        (detectedAsChild gBS
            (connectPass gBS hb pre (vetoPass gBS hb ⟨w, []⟩)).world c hb = false →
          connects.count c = 1) ∧
        (detectedAsChild gBS
            (connectPass gBS hb pre (vetoPass gBS hb ⟨w, []⟩)).world c hb = true →
          connects.count c = 0) := by
  obtain ⟨ws, hw⟩ := vetoPass_trace gBS hb (⟨w, []⟩ : ConnectorState σ)
  obtain ⟨cs, ht, hsub, hmem⟩ := connectPass_connects gBS hb hb (vetoPass gBS hb ⟨w, []⟩)
  have hcnd : cs.Nodup := hsub.nodup hnd
  refine ⟨ws, cs, ?_, hsub, fun x => List.nodup_iff_count_le_one.mp hcnd x, ?_⟩
  · rw [OcConnectDrivers_of_located gBS w hloc, hhb]
    dsimp only
    rw [ht, hw]
    simp only [List.nil_append]
  · intro pre c post e
    have hnd2 := hnd
    rw [e] at hnd2
    have hpre : c ∉ pre := fun h => (List.nodup_append.mp hnd2).2.2 h (by simp)
    have hpost : c ∉ post :=
      (List.nodup_cons.mp (List.nodup_append.mp hnd2).2.1).1
    have hiff := hmem pre c post e hpre hpost
    constructor
    · intro hd
      exact List.count_eq_one_of_mem hcnd (hiff.mpr hd)
    · intro hd
      apply List.count_eq_zero_of_not_mem
      intro hm
      have := hiff.mp hm
      rw [hd] at this
      exact Bool.noConfusion this

theorem connect_once_per_handle_witness :
    EFI_ERROR (exampleChildServices.LocateHandleBuffer exampleWorld).1 = false ∧
    (exampleChildServices.LocateHandleBuffer exampleWorld).2 = [1, 2, 3] ∧
    ([1, 2, 3] : List EFI_HANDLE).Nodup ∧
    ∃ writes connects : List EFI_HANDLE,
      (OcConnectDrivers exampleChildServices exampleWorld).2.trace =
        writes.map (fun x => Event.signatureWrite x 0) ++
          connects.map (fun x => Event.connectController x true) ∧
      connects.Sublist [1, 2, 3] ∧
      (∀ x, connects.count x ≤ 1) ∧
      ∀ (pre : List EFI_HANDLE) (c : EFI_HANDLE) (post : List EFI_HANDLE),
        ([1, 2, 3] : List EFI_HANDLE) = pre ++ c :: post →
        (detectedAsChild exampleChildServices
            (connectPass exampleChildServices [1, 2, 3] pre
              (vetoPass exampleChildServices [1, 2, 3] ⟨exampleWorld, []⟩)).world c
            [1, 2, 3] = false →
          connects.count c = 1) ∧
        (detectedAsChild exampleChildServices
            (connectPass exampleChildServices [1, 2, 3] pre
              (vetoPass exampleChildServices [1, 2, 3] ⟨exampleWorld, []⟩)).world c
            [1, 2, 3] = true →
          connects.count c = 0) :=
  ⟨by decide, by decide, by decide,
    connect_once_per_handle exampleChildServices exampleWorld (by decide) [1, 2, 3]
      (by decide) (by decide)⟩

/-! ## Text comparison -/

theorem char_eq_of_toNat_eq (a b : Char) (h : a.toNat = b.toNat) : a = b := by
  apply Char.ext
  apply UInt32.ext
  exact h

theorem StrCmpChars_self (a : List Char) : StrCmpChars a a = 0 := by
  induction a with
  | nil => rfl
  | cons c rest ih => simp only [StrCmpChars, if_true, ih]

theorem StrCmpChars_eq_zero (a : List Char) :
    ∀ b : List Char, (∀ c ∈ a, c.toNat ≠ 0) → (∀ c ∈ b, c.toNat ≠ 0) →
      StrCmpChars a b = 0 → a = b := by
  induction a with
  | nil =>
    intro b _ hb h
    cases b with
    | nil => rfl
    | cons c rest =>
      simp only [StrCmpChars] at h
      have := hb c (by simp)
      omega
  | cons x xs ih =>
    intro b ha hb h
    cases b with
    | nil =>
      simp only [StrCmpChars] at h
      have := ha x (by simp)
      omega
    | cons y ys =>
      simp only [StrCmpChars] at h
      by_cases e : x = y
      · rw [if_pos e] at h
        rw [e, ih ys (fun c hc => ha c (List.mem_cons_of_mem _ hc))
          (fun c hc => hb c (List.mem_cons_of_mem _ hc)) h]
      · rw [if_neg e] at h
        exact absurd (char_eq_of_toNat_eq x y (by omega)) e

theorem isText_iff (t : String) : isText t = true ↔ ∀ c ∈ t.data, c.toNat ≠ 0 := by
  simp [isText]

/-- The comparison is zero exactly on equal texts. -/
theorem StrCmp_eq_zero_iff (a b : String) (ha : isText a = true) (hb : isText b = true) :
    StrCmp a b = 0 ↔ a = b := by
  constructor
  · intro h
    exact String.ext
      (StrCmpChars_eq_zero a.data b.data ((isText_iff a).mp ha) ((isText_iff b).mp hb) h)
  · intro h
    rw [h]
    exact StrCmpChars_self b.data

/-- The condition of source lines 253-259 holds exactly for the six vetoed
texts. -/
theorem isVetoedPath_iff (t : String) (ht : isText t = true) :
    isVetoedPath t = true ↔ t ∈ VetoedPathSet := by
  constructor
  · intro h
    simp only [isVetoedPath, Bool.or_eq_true, decide_eq_true_eq] at h
    simp only [VetoedPathSet, List.mem_cons, List.mem_singleton, List.not_mem_nil,
      or_false]
    rcases h with ((((h | h) | h) | h) | h) | h
    · exact Or.inl ((StrCmp_eq_zero_iff t _ ht (by decide)).mp h)
    · exact Or.inr (Or.inl ((StrCmp_eq_zero_iff t _ ht (by decide)).mp h))
    · exact Or.inr (Or.inr (Or.inl ((StrCmp_eq_zero_iff t _ ht (by decide)).mp h)))
    · exact Or.inr (Or.inr (Or.inr (Or.inl ((StrCmp_eq_zero_iff t _ ht (by decide)).mp h))))
    · exact Or.inr (Or.inr (Or.inr (Or.inr (Or.inl
        ((StrCmp_eq_zero_iff t _ ht (by decide)).mp h)))))
    · exact Or.inr (Or.inr (Or.inr (Or.inr (Or.inr
        ((StrCmp_eq_zero_iff t _ ht (by decide)).mp h)))))
  · exact isVetoedPath_of_mem t

theorem vetoStep_not_vetoed {σ : Type} (gBS : BootServices σ) (h : EFI_HANDLE)
    (s : ConnectorState σ)
    (hno : ∀ t, gBS.DevicePathText h s.world = some t → isVetoedPath t = false) :
    vetoStep gBS h s = s := by
  unfold vetoStep
  cases ht : gBS.DevicePathText h s.world with
  | none => rfl
  | some t => simp only [hno t ht, Bool.false_eq_true, if_false]

/-! ## The veto pass and the status of `OcConnectDrivers` -/

/-- C13: `sh` is the state in which the veto pass reaches the handle `h` of the
snapshot `pre ++ h :: post`, and the text rendered for `h`, if any, holds no NUL
character.  If the device path of `h` renders to a text that equals one of the
six vetoed texts, the iteration writes 0 into the signature of `h` (and does
nothing else); if the rendering fails or the text equals none of them, as
when a vetoed text is only a proper prefix of it, the iteration leaves
the state, the signature of `h` included, unchanged.  Either way the pass goes
on with the handles after `h`. -/
theorem veto_iteration {σ : Type} (gBS : BootServices σ) (pre post : List EFI_HANDLE)
    (h : EFI_HANDLE) (s sh : ConnectorState σ) (hsh : sh = vetoPass gBS pre s)
    (hwf : ∀ t, gBS.DevicePathText h sh.world = some t → isText t = true) :
    ((∃ t, gBS.DevicePathText h sh.world = some t ∧ t ∈ VetoedPathSet) →
      vetoStep gBS h sh =
        ⟨invalidateSignature h sh.world, sh.trace ++ [.signatureWrite h 0]⟩ ∧
      (vetoStep gBS h sh).world.Signature h = 0) ∧
    (¬ (∃ t, gBS.DevicePathText h sh.world = some t ∧ t ∈ VetoedPathSet) →
      vetoStep gBS h sh = sh) ∧
    vetoPass gBS (pre ++ h :: post) s = vetoPass gBS post (vetoStep gBS h sh) := by
  refine ⟨?_, ?_, ?_⟩
  · rintro ⟨t, ht, hv⟩
    have hstep := vetoStep_vetoed gBS h sh t ht (isVetoedPath_of_mem t hv)
    refine ⟨hstep, ?_⟩
    rw [hstep]
    simp [invalidateSignature]
  · intro hno
    apply vetoStep_not_vetoed
    intro t ht
    cases hv : isVetoedPath t with
    | false => rfl
    | true => exact absurd ⟨t, ht, (isVetoedPath_iff t (hwf t ht)).mp hv⟩ hno
  · rw [vetoPass_append, hsh]
    rfl

theorem veto_iteration_witness :
    (∀ t, exampleServices.DevicePathText 2
        (vetoPass exampleServices [1] ⟨exampleWorld, []⟩).world = some t →
      isText t = true) ∧
    exampleServices.DevicePathText 2
        (vetoPass exampleServices [1] ⟨exampleWorld, []⟩).world =
      some "PciRoot(0x0)/Pci(0x1,0x0)" ∧
    "PciRoot(0x0)/Pci(0x1,0x0)" ∉ VetoedPathSet ∧
    (((∃ t, exampleServices.DevicePathText 2
          (vetoPass exampleServices [1] ⟨exampleWorld, []⟩).world = some t ∧
          t ∈ VetoedPathSet) →
      vetoStep exampleServices 2 (vetoPass exampleServices [1] ⟨exampleWorld, []⟩) =
        ⟨invalidateSignature 2 (vetoPass exampleServices [1] ⟨exampleWorld, []⟩).world,
          (vetoPass exampleServices [1] ⟨exampleWorld, []⟩).trace ++
            [.signatureWrite 2 0]⟩ ∧
      (vetoStep exampleServices 2
        (vetoPass exampleServices [1] ⟨exampleWorld, []⟩)).world.Signature 2 = 0) ∧
     (¬ (∃ t, exampleServices.DevicePathText 2
          (vetoPass exampleServices [1] ⟨exampleWorld, []⟩).world = some t ∧
          t ∈ VetoedPathSet) →
      vetoStep exampleServices 2 (vetoPass exampleServices [1] ⟨exampleWorld, []⟩) =
        vetoPass exampleServices [1] ⟨exampleWorld, []⟩) ∧
     vetoPass exampleServices ([1] ++ 2 :: []) ⟨exampleWorld, []⟩ =
      vetoPass exampleServices []
        (vetoStep exampleServices 2 (vetoPass exampleServices [1] ⟨exampleWorld, []⟩))) :=
  ⟨fun t ht =>
      Option.some.inj (ht : some "PciRoot(0x0)/Pci(0x1,0x0)" = some t) ▸ (by decide),
    rfl, by decide,
    veto_iteration exampleServices [1] [] 2 ⟨exampleWorld, []⟩ _ rfl
      (fun t ht =>
        Option.some.inj (ht : some "PciRoot(0x0)/Pci(0x1,0x0)" = some t) ▸ (by decide))⟩

/-- C14: `OcConnectDrivers` returns an error exactly when obtaining the handle
snapshot fails; it then returns the status of `LocateHandleBuffer` itself,
leaves the environment as it was and causes no event (no signature write, no
`ConnectController` call).  Whenever the snapshot is obtained it returns
`EFI_SUCCESS`, for every behaviour of the per-handle services. -/
theorem OcConnectDrivers_status {σ : Type} (gBS : BootServices σ) (w : World σ) :
    (EFI_ERROR (OcConnectDrivers gBS w).1 = true ↔
      EFI_ERROR (gBS.LocateHandleBuffer w).1 = true) ∧
    (EFI_ERROR (gBS.LocateHandleBuffer w).1 = true →
      OcConnectDrivers gBS w = ((gBS.LocateHandleBuffer w).1, ⟨w, []⟩)) ∧
    (EFI_ERROR (gBS.LocateHandleBuffer w).1 = false →
      (OcConnectDrivers gBS w).1 = EFI_SUCCESS) := by
  cases hloc : EFI_ERROR (gBS.LocateHandleBuffer w).1
  · have h := OcConnectDrivers_of_located gBS w hloc
    refine ⟨?_, fun e => Bool.noConfusion e, fun _ => by rw [h]⟩
    rw [h]
    have hs : ¬ EFI_ERROR EFI_SUCCESS = true := by decide
    exact ⟨fun e => absurd e hs, fun e => Bool.noConfusion e⟩
  · have h : OcConnectDrivers gBS w = ((gBS.LocateHandleBuffer w).1, ⟨w, []⟩) := by
      unfold OcConnectDrivers
      simp only [hloc, if_true]
    refine ⟨?_, fun _ => h, fun e => Bool.noConfusion e⟩
    rw [h]
    simp only [hloc]

/-- C17, as stated, fails: in an environment whose handle enumeration fails
with `EFI_NOT_FOUND`, `OcConnectDrivers` returns `EFI_NOT_FOUND`, an error. -/
theorem OcConnectDrivers_failure_counterexample :
    (exampleFailingServices.LocateHandleBuffer exampleWorld).1 = EFI_NOT_FOUND ∧
    (OcConnectDrivers exampleFailingServices exampleWorld).1 = EFI_NOT_FOUND ∧
    (OcConnectDrivers exampleFailingServices exampleWorld).1 ≠ EFI_SUCCESS ∧
    EFI_ERROR (OcConnectDrivers exampleFailingServices exampleWorld).1 = true := by
  decide

/-- C17, amended: `OcConnectDrivers` returns success for every environment in
which the enumeration of handles with a device path does not fail. -/
theorem OcConnectDrivers_success {σ : Type} (gBS : BootServices σ) (w : World σ)
    (hloc : EFI_ERROR (gBS.LocateHandleBuffer w).1 = false) :
    (OcConnectDrivers gBS w).1 = EFI_SUCCESS := by
  rw [OcConnectDrivers_of_located gBS w hloc]

theorem OcConnectDrivers_success_witness :
    EFI_ERROR (exampleServices.LocateHandleBuffer exampleWorld).1 = false ∧
    (OcConnectDrivers exampleServices exampleWorld).1 = EFI_SUCCESS :=
  ⟨by decide, OcConnectDrivers_success exampleServices exampleWorld (by decide)⟩

/-! ## Registration -/

theorem EFI_ERROR_success : EFI_ERROR EFI_SUCCESS = false := by decide

theorem EFI_ERROR_not_found : EFI_ERROR EFI_NOT_FOUND = true := by decide

/-- The two paths of registration, by whether an authority is installed. -/
theorem register_of_none_or_some {σ : Type} (PriorityDrivers : List EFI_HANDLE)
    (st : Statics σ) (p : Platform σ) :
    OcRegisterDriversToHighestPriority PriorityDrivers st p =
      match p.PlatformDriverOverride with
      | some Interface =>
        (EFI_SUCCESS, ⟨some PriorityDrivers, Interface.GetDriver⟩,
          ⟨some ⟨some .OcPlatformGetDriver, Interface.GetDriverPath, Interface.DriverLoaded⟩,
            p.InstallStatus⟩)
      | none =>
        ((InstallMultipleProtocolInterfaces mOcPlatformDriverOverrideProtocol p).1,
          ⟨some PriorityDrivers, st.mOrgPlatformGetDriver⟩,
          (InstallMultipleProtocolInterfaces mOcPlatformDriverOverrideProtocol p).2) := by
  unfold OcRegisterDriversToHighestPriority LocateProtocol
  cases p.PlatformDriverOverride with
  | none => simp only [EFI_ERROR_not_found, Bool.not_true, Bool.false_eq_true, if_false]
  | some Interface => simp only [EFI_ERROR_success, Bool.not_false, if_true]

/-- C16: registration stores the given list as the priority list.  If the
environment already has a driver override authority, its previous `GetDriver`
entry point becomes the saved original, its `GetDriver` entry point becomes
`OcPlatformGetDriver` while its other two entry points stay as they were, and
the status returned is not an error.  If there is none, the library's own
protocol structure, whose three entry points are `OcPlatformGetDriver`,
`OcPlatformGetDriverPath` and `OcPlatformDriverLoaded`, is handed to the
installation service, whose status and resulting environment are returned as
they are; the saved original is not touched. -/
theorem register_effect {σ : Type} (PriorityDrivers : List EFI_HANDLE) (st : Statics σ)
    (p : Platform σ) :
    (OcRegisterDriversToHighestPriority PriorityDrivers st p).2.1.mPriorityDrivers =
      some PriorityDrivers ∧
    (∀ Interface, p.PlatformDriverOverride = some Interface →
      (OcRegisterDriversToHighestPriority PriorityDrivers st p).2.1.mOrgPlatformGetDriver =
        Interface.GetDriver ∧
      (OcRegisterDriversToHighestPriority PriorityDrivers st p).2.2.PlatformDriverOverride =
        some ⟨some .OcPlatformGetDriver, Interface.GetDriverPath, Interface.DriverLoaded⟩ ∧
      EFI_ERROR (OcRegisterDriversToHighestPriority PriorityDrivers st p).1 = false) ∧
    (p.PlatformDriverOverride = none →
      (OcRegisterDriversToHighestPriority PriorityDrivers st p).1 =
        (InstallMultipleProtocolInterfaces mOcPlatformDriverOverrideProtocol p).1 ∧
      (OcRegisterDriversToHighestPriority PriorityDrivers st p).2.2 =
        (InstallMultipleProtocolInterfaces mOcPlatformDriverOverrideProtocol p).2 ∧
      (OcRegisterDriversToHighestPriority PriorityDrivers st p).2.1.mOrgPlatformGetDriver =
        st.mOrgPlatformGetDriver ∧
      (@mOcPlatformDriverOverrideProtocol σ) =
        ⟨some .OcPlatformGetDriver, .OcPlatformGetDriverPath, .OcPlatformDriverLoaded⟩ ∧
      (EFI_ERROR p.InstallStatus = false →
        (OcRegisterDriversToHighestPriority PriorityDrivers st p).2.2.PlatformDriverOverride =
          some mOcPlatformDriverOverrideProtocol)) := by
  refine ⟨?_, ?_, ?_⟩
  · rw [register_of_none_or_some PriorityDrivers st p]
    cases p.PlatformDriverOverride <;> rfl
  · intro Interface hI
    rw [register_of_none_or_some PriorityDrivers st p, hI]
    exact ⟨rfl, rfl, EFI_ERROR_success⟩
  · intro hI
    rw [register_of_none_or_some PriorityDrivers st p, hI]
    refine ⟨rfl, rfl, rfl, rfl, ?_⟩
    intro hs
    show (InstallMultipleProtocolInterfaces mOcPlatformDriverOverrideProtocol
      p).2.PlatformDriverOverride = _
    unfold InstallMultipleProtocolInterfaces
    rw [hs]
    rfl

/-- C18: `OcPlatformGetDriverPath` and `OcPlatformDriverLoaded` return
`EFI_UNSUPPORTED` for all arguments and all statics, and leave
`*DriverImagePath`, the statics and the firmware state as they were. -/
theorem unsupported_entry_points {σ : Type} (st : Statics σ) (This : Nat)
    (ControllerHandle : EFI_HANDLE) (DriverImagePath : Nat)
    (DriverImageHandle : EFI_HANDLE) (w : σ) :
    OcPlatformGetDriverPath st This ControllerHandle DriverImagePath w =
      (EFI_UNSUPPORTED, DriverImagePath, st, w) ∧
    OcPlatformDriverLoaded st This ControllerHandle DriverImagePath DriverImageHandle w =
      (EFI_UNSUPPORTED, st, w) :=
  ⟨rfl, rfl⟩

theorem registeredOnce_eq :
    registeredOnce =
      (EFI_SUCCESS, ⟨some [5], none⟩, ⟨some mOcPlatformDriverOverrideProtocol, EFI_SUCCESS⟩) := by
  unfold registeredOnce
  rw [register_of_none_or_some]
  simp only [examplePlatform, InstallMultipleProtocolInterfaces, EFI_ERROR_success,
    Bool.false_eq_true, if_false, initialStatics]

theorem registeredTwice_eq :
    registeredTwice =
      (EFI_SUCCESS, ⟨some [5], some .OcPlatformGetDriver⟩,
        ⟨some mOcPlatformDriverOverrideProtocol, EFI_SUCCESS⟩) := by
  unfold registeredTwice
  rw [registeredOnce_eq, register_of_none_or_some]
  rfl

theorem callOwn_succ {σ : Type} (st : Statics σ) (n : Nat) (This : Nat)
    (c d : EFI_HANDLE) (w : σ) :
    callGetDriver st (n + 1) .OcPlatformGetDriver This c d w =
      (OcPlatformGetDriver st.mPriorityDrivers
        (st.mOrgPlatformGetDriver.map fun e => callGetDriver st n e) This c d w).ret := by
  rfl

/-- C15 at its failing input: the environment has no authority and
installation succeeds; the list `[5]` is registered twice.  After one
registration no original is saved, the query with cursor 5 reports not-found
and the query with the unknown cursor 8 reports invalid-parameter.  After the
second registration the saved original is `OcPlatformGetDriver` itself: the
query with cursor 5 succeeds with 5 again and the query with cursor 8 does not
return within any depth of calls. -/
theorem second_registration_saves_own_entry :
    registeredOnce.2.1.mOrgPlatformGetDriver.isNone = true ∧
    (∀ n, callGetDriver registeredOnce.2.1 (n + 1) .OcPlatformGetDriver 9 1 5 () =
      some ⟨EFI_NOT_FOUND, NULL, ()⟩) ∧
    (∀ n, callGetDriver registeredOnce.2.1 (n + 1) .OcPlatformGetDriver 9 1 8 () =
      some ⟨EFI_INVALID_PARAMETER, 8, ()⟩) ∧
    registeredTwice.2.1.mPriorityDrivers = some [5] ∧
    pointsToOcPlatformGetDriver registeredTwice.2.1.mOrgPlatformGetDriver = true ∧
    (∀ n, callGetDriver registeredTwice.2.1 (n + 2) .OcPlatformGetDriver 9 1 5 () =
      some ⟨EFI_SUCCESS, 5, ()⟩) ∧
    (∀ n, callGetDriver registeredTwice.2.1 n .OcPlatformGetDriver 9 1 8 () = none) := by
  rw [registeredOnce_eq, registeredTwice_eq]
  refine ⟨rfl, fun n => ?_, fun n => ?_, rfl, rfl, fun n => ?_, fun n => ?_⟩
  · rw [callOwn_succ]
    rfl
  · rw [callOwn_succ]
    rfl
  · rw [callOwn_succ]
    show (OcPlatformGetDriver (some [5])
      (some (callGetDriver ⟨some [5], some .OcPlatformGetDriver⟩ (n + 1)
        .OcPlatformGetDriver)) 9 1 5 ()).ret = _
    have h : OcPlatformGetDriver (some [5])
        (some (callGetDriver ⟨some [5], some .OcPlatformGetDriver⟩ (n + 1)
          .OcPlatformGetDriver)) 9 1 5 () = _ :=
      getDriver_at_last_some [] 5 (by decide) (by decide) (by decide) _ 9 1 (by decide) ()
    rw [h]
    show callGetDriver _ (n + 1) .OcPlatformGetDriver 9 1 NULL () = _
    rw [callOwn_succ]
    rfl
  · induction n with
    | zero => rfl
    | succ k ih =>
      rw [callOwn_succ]
      show (OcPlatformGetDriver (some [5])
        (some (callGetDriver ⟨some [5], some .OcPlatformGetDriver⟩ k
          .OcPlatformGetDriver)) 9 1 8 ()).ret = _
      rw [getDriver_forward_unknown [5] (by decide) 8 (by decide) (by decide) _ 9 1
        (by decide) ()]
      exact ih

/-! ## A chain that meets the priority list again -/

/-- With priority list `[5, 6]` and the chain over `[7, 5]` as original, a query
whose cursor is null, 5, 6 or 7 succeeds with a handle that is again 5, 6 or
7; so every query of the enumeration succeeds. -/
theorem runQueries_cycle (n : Nat) :
    ∀ c : EFI_HANDLE, c = NULL ∨ c = 5 ∨ c = 6 ∨ c = 7 →
      (runQueries (@OcPlatformGetDriver Unit (some [5, 6]) (some (chainGetDriver [7, 5])) 9 1)
          n c ()).length = n ∧
      ∀ o ∈ runQueries
          (@OcPlatformGetDriver Unit (some [5, 6]) (some (chainGetDriver [7, 5])) 9 1) n c (),
        ∃ h, seen o = .driver h := by
  induction n with
  | zero =>
    intro c _
    exact ⟨rfl, fun o ho => absurd ho (List.not_mem_nil o)⟩
  | succ k ih =>
    intro c hc
    have key : ∃ d, (d = NULL ∨ d = 5 ∨ d = 6 ∨ d = 7) ∧
        (@OcPlatformGetDriver Unit (some [5, 6]) (some (chainGetDriver [7, 5])) 9 1
          c ()).ret = some ⟨EFI_SUCCESS, d, ()⟩ := by
      rcases hc with h | h | h | h
      · exact ⟨5, Or.inr (Or.inl rfl), by rw [h]; rfl⟩
      · exact ⟨6, Or.inr (Or.inr (Or.inl rfl)), by rw [h]; rfl⟩
      · exact ⟨7, Or.inr (Or.inr (Or.inr rfl)), by rw [h]; rfl⟩
      · exact ⟨5, Or.inr (Or.inl rfl), by rw [h]; rfl⟩
    obtain ⟨d, hd, hret⟩ := key
    obtain ⟨hlen, hall⟩ := ih d hd
    rw [runQueries_of_success _ k c () ⟨EFI_SUCCESS, d, ()⟩ hret rfl]
    refine ⟨by rw [List.length_cons, hlen], ?_⟩
    intro o ho
    rcases List.mem_cons.mp ho with h | h
    · exact ⟨d, by rw [h]; exact seen_of_success _ ⟨EFI_SUCCESS, d, ()⟩ hret rfl⟩
    · exact hall o h

/-- C19: there are a priority list of pairwise distinct non-null handles and a
well-behaved original, the chain over a duplicate-free list that ends with
not-found, sharing one handle with the priority list (priority `[5, 6]`,
original `[7, 5]`), such that the enumeration from a null cursor never ends:
however many queries the caller makes, each one succeeds.  The caller sees
5, 6, 7, 5, 6, 7 and so on. -/
theorem enumeration_cycles :
    ∃ P Q : List EFI_HANDLE,
      P.Nodup ∧ Q.Nodup ∧ NULL ∉ P ∧ NULL ∉ Q ∧ (∃ h, h ∈ P ∧ h ∈ Q) ∧
      WellBehavedChain (@chainGetDriver Unit Q) Q ∧
      (@chainGetDriver Unit Q 9 1 (Q.getLastD NULL) ()).map (fun r => r.Status) =
        some EFI_NOT_FOUND ∧
      (∀ n,
        (runQueries (@OcPlatformGetDriver Unit (some P) (some (chainGetDriver Q)) 9 1)
            n NULL ()).length = n ∧
        ∀ o ∈ runQueries
            (@OcPlatformGetDriver Unit (some P) (some (chainGetDriver Q)) 9 1) n NULL (),
          ∃ h, seen o = .driver h) ∧
      (runQueries (@OcPlatformGetDriver Unit (some P) (some (chainGetDriver Q)) 9 1)
          7 NULL ()).map seen =
        [.driver 5, .driver 6, .driver 7, .driver 5, .driver 6, .driver 7, .driver 5] :=
  ⟨[5, 6], [7, 5], by decide, by decide, by decide, by decide, ⟨5, by decide, by decide⟩,
    chainGetDriver_wellBehaved [7, 5], by decide,
    fun n => runQueries_cycle n NULL (Or.inl rfl), by decide⟩

end OcDriverConnectionLib
